import Mathlib

/-!
Verification development for the distribution-generation module of the
spectrum-comparison dashboard (src/lib/distributions.ts, together with the
comparison join in src/components/spectrum-chart.tsx and the CSV export in
src/components/pages/spectrum-dashboard.tsx).

JavaScript numbers are modelled exactly as rationals extended with the three
IEEE special values NaN, +Infinity and -Infinity.  Arithmetic on the finite
part is exact rational arithmetic (rounding is not modelled; every property
considered here is independent of rounding).  The negative zero of IEEE-754
is not modelled either: no behaviour below depends on the sign of zero.
The transcendental primitive Math.exp has no exact rational counterpart, so
the two samplers that use it take the exponential map as an explicit function
argument; nothing below depends on its values except where stated.
-/

/-- A JavaScript number: NaN, +Infinity, -Infinity, or an exact finite value. -/
inductive JsNum where
  | nan : JsNum
  | posinf : JsNum
  | neginf : JsNum
  | fin : ℚ → JsNum
deriving DecidableEq

namespace JsNum

/-- JavaScript addition `a + b` on the extended values. -/
def jsAdd : JsNum → JsNum → JsNum
  | nan, _ => nan
  | _, nan => nan
  | posinf, neginf => nan
  | neginf, posinf => nan
  | posinf, _ => posinf
  | _, posinf => posinf
  | neginf, _ => neginf
  | _, neginf => neginf
  | fin a, fin b => fin (a + b)

/-- JavaScript unary minus. -/
def jsNeg : JsNum → JsNum
  | nan => nan
  | posinf => neginf
  | neginf => posinf
  | fin a => fin (-a)

/-- JavaScript subtraction `a - b`, which agrees with `a + (-b)`. -/
def jsSub (a b : JsNum) : JsNum := jsAdd a (jsNeg b)

/-- JavaScript multiplication `a * b`; `Infinity * 0` is NaN. -/
def jsMul : JsNum → JsNum → JsNum
  | nan, _ => nan
  | _, nan => nan
  | posinf, posinf => posinf
  | posinf, neginf => neginf
  | neginf, posinf => neginf
  | neginf, neginf => posinf
  | posinf, fin b => if 0 < b then posinf else if b < 0 then neginf else nan
  | fin a, posinf => if 0 < a then posinf else if a < 0 then neginf else nan
  | neginf, fin b => if 0 < b then neginf else if b < 0 then posinf else nan
  | fin a, neginf => if 0 < a then neginf else if a < 0 then posinf else nan
  | fin a, fin b => fin (a * b)

/-- JavaScript division `a / b`; division of a nonzero finite value by zero
gives a signed infinity (zero is treated as +0, negative zero not being
modelled), `0 / 0` and `Infinity / Infinity` give NaN, and a finite value
divided by an infinity gives 0. -/
def jsDiv : JsNum → JsNum → JsNum
  | nan, _ => nan
  | _, nan => nan
  | posinf, posinf => nan
  | posinf, neginf => nan
  | neginf, posinf => nan
  | neginf, neginf => nan
  | posinf, fin b => if b < 0 then neginf else posinf
  | neginf, fin b => if b < 0 then posinf else neginf
  | fin _, posinf => fin 0
  | fin _, neginf => fin 0
  | fin a, fin b =>
      if b = 0 then (if a = 0 then nan else if 0 < a then posinf else neginf)
      else fin (a / b)

/-- JavaScript `Math.pow` restricted to natural exponents (the source only
uses exponents 2 and 5); `pow(x, 0) = 1` for every x, including NaN. -/
def jsPow (x : JsNum) : ℕ → JsNum
  | 0 => fin 1
  | Nat.succ m =>
      match x with
      | nan => nan
      | posinf => posinf
      | neginf => if (m + 1) % 2 = 0 then posinf else neginf
      | fin q => fin (q ^ (m + 1))

/-- JavaScript strict comparison `a < b`; false whenever either side is NaN. -/
def jsLt : JsNum → JsNum → Bool
  | nan, _ => false
  | _, nan => false
  | posinf, _ => false
  | neginf, neginf => false
  | neginf, _ => true
  | _, posinf => true
  | fin _, neginf => false
  | fin a, fin b => decide (a < b)

/-- JavaScript strict comparison `a > b`. -/
def jsGt (a b : JsNum) : Bool := jsLt b a

/-- JavaScript strict equality `a === b`; false whenever either side is NaN. -/
def jsEq (a b : JsNum) : Bool :=
  match a, b with
  | nan, _ => false
  | _, nan => false
  | a, b => decide (a = b)

/-- The binary step of JavaScript `Math.max`: NaN-propagating maximum. -/
def jsMax2 (a b : JsNum) : JsNum :=
  if a = nan ∨ b = nan then nan else if jsLt a b then b else a

/-- The binary step of JavaScript `Math.min`: NaN-propagating minimum. -/
def jsMin2 (a b : JsNum) : JsNum :=
  if a = nan ∨ b = nan then nan else if jsLt b a then b else a

/-- JavaScript `Math.max(...l)`: fold of the NaN-propagating maximum, with
`Math.max()` of an empty argument list being `-Infinity`. -/
def jsMax (l : List JsNum) : JsNum := l.foldl jsMax2 neginf

/-- JavaScript `Math.min(...l)`: fold of the NaN-propagating minimum, with
`Math.min()` of an empty argument list being `Infinity`. -/
def jsMin (l : List JsNum) : JsNum := l.foldl jsMin2 posinf

/-- JavaScript truthiness of a number: every number is truthy except 0 and
NaN (negative zero is not modelled). -/
def jsTruthyV : JsNum → Bool
  | nan => false
  | fin q => decide (q ≠ 0)
  | _ => true

/-- JavaScript `Number.isFinite`. -/
def jsIsFinite : JsNum → Bool
  | fin _ => true
  | _ => false

end JsNum

open JsNum

/-- A point of a sampled curve (interface DistributionPoint of the source). -/
structure DistributionPoint where
  wavelength : JsNum
  intensity : JsNum
deriving DecidableEq

/-- Planck constant `h = 6.62607015e-34`, the source literal as an exact
rational. -/
def hPlanck : ℚ := 662607015 / 10 ^ 42

/-- Speed of light `c = 299792458` of the source. -/
def cLight : ℚ := 299792458

/-- Boltzmann constant `k = 1.380649e-23`, the source literal as an exact
rational. -/
def kBoltzmann : ℚ := 1380649 / 10 ^ 29

/-- The constant `Math.PI`: the exact rational value of the IEEE-754 double closest to pi,
namely `884279719003555 * 2 ^ (-48)`. -/
def jsPI : ℚ := 884279719003555 / 2 ^ 48

/-- The trailing rescale block shared verbatim by the three samplers
(`const maxIntensity = Math.max(...points.map(p => p.intensity)); if
(maxIntensity > 0) { points.forEach(point => { point.intensity =
point.intensity / maxIntensity; }); }`). -/
def rescalePoints (points : List DistributionPoint) : List DistributionPoint :=
  let maxIntensity := jsMax (points.map (fun p => p.intensity))
  if jsGt maxIntensity (fin 0) then
    points.map (fun p => { p with intensity := jsDiv p.intensity maxIntensity })
  else points

/-- The point-generation loop of `calculateBlackbodySpectrum`: for each
`i < numPoints`, wavelength `lowWavelength + i * step` with
`step = (highWavelength - lowWavelength) / (numPoints - 1)`, and intensity
given by Planck's law.  `mexp` stands for `Math.exp`. -/
def blackbodyRawPoints (mexp : JsNum → JsNum)
    (lowWavelength highWavelength temperature : JsNum) (numPoints : ℕ) :
    List DistributionPoint :=
  let step := jsDiv (jsSub highWavelength lowWavelength) (fin ((numPoints : ℚ) - 1))
  (List.range numPoints).map (fun i : ℕ =>
    let wavelength := jsAdd lowWavelength (jsMul (fin (i : ℚ)) step)
    let wavelengthM := jsMul wavelength (fin (1 / 10 ^ 9))
    let numerator := jsMul (jsMul (jsMul (fin 2) (fin hPlanck)) (fin cLight)) (fin cLight)
    let denominator := jsMul (jsPow wavelengthM 5)
      (jsSub (mexp (jsDiv (jsMul (fin hPlanck) (fin cLight))
        (jsMul (jsMul wavelengthM (fin kBoltzmann)) temperature))) (fin 1))
    ⟨wavelength, jsDiv numerator denominator⟩)

/-- Function `calculateBlackbodySpectrum` of the source: the raw Planck curve followed
by the internal peak rescale. -/
def calculateBlackbodySpectrum (mexp : JsNum → JsNum)
    (lowWavelength highWavelength temperature : JsNum)
    (numPoints : ℕ := 1000) : List DistributionPoint :=
  rescalePoints (blackbodyRawPoints mexp lowWavelength highWavelength temperature numPoints)

/-- The point-generation loop of `calculateGaussianSpectrum`: intensity
`multiplier * exp(-((wavelength - peak) / standardDeviation) ^ 2 / 2)`. -/
def gaussianRawPoints (mexp : JsNum → JsNum)
    (lowWavelength highWavelength peakWavelength standardDeviation multiplier : JsNum)
    (numPoints : ℕ) : List DistributionPoint :=
  let step := jsDiv (jsSub highWavelength lowWavelength) (fin ((numPoints : ℚ) - 1))
  (List.range numPoints).map (fun i : ℕ =>
    let wavelength := jsAdd lowWavelength (jsMul (fin (i : ℚ)) step)
    let exponent := jsDiv (jsNeg (jsPow (jsDiv (jsSub wavelength peakWavelength)
      standardDeviation) 2)) (fin 2)
    ⟨wavelength, jsMul multiplier (mexp exponent)⟩)

/-- Function `calculateGaussianSpectrum` of the source. -/
def calculateGaussianSpectrum (mexp : JsNum → JsNum)
    (lowWavelength highWavelength peakWavelength standardDeviation : JsNum)
    (multiplier : JsNum := fin 1) (numPoints : ℕ := 1000) : List DistributionPoint :=
  rescalePoints (gaussianRawPoints mexp lowWavelength highWavelength peakWavelength
    standardDeviation multiplier numPoints)

/-- The point-generation loop of `calculateLorentzianSpectrum`: with
`gamma = fwhm / 2`, intensity
`multiplier * gamma ^ 2 / (Math.PI * ((wavelength - peak) ^ 2 + gamma ^ 2))`. -/
def lorentzianRawPoints
    (lowWavelength highWavelength peakWavelength fwhm multiplier : JsNum)
    (numPoints : ℕ) : List DistributionPoint :=
  let step := jsDiv (jsSub highWavelength lowWavelength) (fin ((numPoints : ℚ) - 1))
  let gamma := jsDiv fwhm (fin 2)
  (List.range numPoints).map (fun i : ℕ =>
    let wavelength := jsAdd lowWavelength (jsMul (fin (i : ℚ)) step)
    let denominator := jsAdd (jsPow (jsSub wavelength peakWavelength) 2) (jsPow gamma 2)
    ⟨wavelength, jsDiv (jsMul multiplier (jsPow gamma 2)) (jsMul (fin jsPI) denominator)⟩)

/-- Function `calculateLorentzianSpectrum` of the source. -/
def calculateLorentzianSpectrum
    (lowWavelength highWavelength peakWavelength fwhm : JsNum)
    (multiplier : JsNum := fin 1) (numPoints : ℕ := 1000) : List DistributionPoint :=
  rescalePoints (lorentzianRawPoints lowWavelength highWavelength peakWavelength fwhm
    multiplier numPoints)

/-- The distribution kind tag of `DistributionParams`. -/
inductive DistType where
  | blackbody : DistType
  | gaussian : DistType
  | lorentzian : DistType
deriving DecidableEq

/-- Interface `DistributionParams` of the source; the kind-specific fields are optional
(`Option`), matching the `?:` fields of the TypeScript interface. -/
structure DistributionParams where
  type : DistType
  lowWavelength : JsNum
  highWavelength : JsNum
  temperature : Option JsNum := none
  peakWavelength : Option JsNum := none
  standardDeviation : Option JsNum := none
  gaussianMultiplier : Option JsNum := none
  lorentzianPeakWavelength : Option JsNum := none
  fwhm : Option JsNum := none
  lorentzianMultiplier : Option JsNum := none
deriving DecidableEq

/-- The JavaScript expression `v || d` for an optional numeric field `v`: the
default `d` is taken when the field is absent (undefined) or its value is
falsy (0 or NaN). -/
def jsOrDefault (v : Option JsNum) (d : JsNum) : JsNum :=
  match v with
  | none => d
  | some x => if jsTruthyV x then x else d

/-- Function `calculateDistribution` of the source: dispatch on `type`, with the `||`
defaults `5776`, `300`, `20`, `1`, `300`, `20`, `1` for the optional fields,
and the sampler default `numPoints = 1000`. -/
def calculateDistribution (mexp : JsNum → JsNum) (params : DistributionParams) :
    List DistributionPoint :=
  match params.type with
  | DistType.blackbody =>
      calculateBlackbodySpectrum mexp params.lowWavelength params.highWavelength
        (jsOrDefault params.temperature (fin 5776))
  | DistType.gaussian =>
      calculateGaussianSpectrum mexp params.lowWavelength params.highWavelength
        (jsOrDefault params.peakWavelength (fin 300))
        (jsOrDefault params.standardDeviation (fin 20))
        (jsOrDefault params.gaussianMultiplier (fin 1))
  | DistType.lorentzian =>
      calculateLorentzianSpectrum params.lowWavelength params.highWavelength
        (jsOrDefault params.lorentzianPeakWavelength (fin 300))
        (jsOrDefault params.fwhm (fin 20))
        (jsOrDefault params.lorentzianMultiplier (fin 1))

/-- Function `normalizeDistribution` of the source: empty input is returned as is;
otherwise every intensity is mapped to `(v - min) / (max - min)` where `max`
and `min` are `Math.max` / `Math.min` over all intensities, except that when
`max === min` every intensity becomes 0.5. -/
def normalizeDistribution (points : List DistributionPoint) : List DistributionPoint :=
  if points.length = 0 then points
  else
    let maxIntensity := jsMax (points.map (fun p => p.intensity))
    let minIntensity := jsMin (points.map (fun p => p.intensity))
    if jsEq maxIntensity minIntensity then
      points.map (fun p => { p with intensity := fin (1 / 2) })
    else
      points.map (fun p =>
        { p with intensity :=
            jsDiv (jsSub p.intensity minIntensity) (jsSub maxIntensity minIntensity) })

/-- A measured sample (interface SpectrumData of the chart/export sources);
`coefficient` and `normalized` are the two optional value fields.  Measured
wavelengths are modelled as exact rationals: the joins compare them with the
strict equality `===`, and no claim involves a non-finite wavelength. -/
structure SpectrumData where
  wavelength : ℚ
  coefficient : Option JsNum := none
  normalized : Option JsNum := none
deriving DecidableEq

/-- The spectrum type tag of a selected series. -/
inductive SpectrumType where
  | absorption : SpectrumType
  | emission : SpectrumType
deriving DecidableEq

/-- A selected series (interface SelectedSpectrum): the display key built
from the compound name and type is abstracted to `name`. -/
structure SelectedSpectrum where
  name : String
  type : SpectrumType
  data : List SpectrumData
deriving DecidableEq

/-- All wavelengths of all series, in traversal order and with repetitions
(the values successively added to the `Set<number>`). -/
def allWavelengths (series : List SelectedSpectrum) : List ℚ :=
  series.flatMap (fun s => s.data.map (fun p => p.wavelength))

/-- The sorted distinct wavelengths built by the CSV export: a `Set<number>`
collects the distinct wavelengths of every measured series and
`Array.from(set).sort((a, b) => a - b)` lists them ascending. -/
def sortedWavelengths (series : List SelectedSpectrum) : List ℚ :=
  List.insertionSort (· ≤ ·) (allWavelengths series).dedup

/-- The value the chart reads off a found point:
`type === 'absorption' ? point.coefficient : point.normalized`. -/
def chartValue (type : SpectrumType) (p : SpectrumData) : Option JsNum :=
  match type with
  | SpectrumType.absorption => p.coefficient
  | SpectrumType.emission => p.normalized

/-- The chart cell of a measured series `s` at row key `w` (raw,
non-normalized display path): the outer `Option` is key presence in the row
object — the key is assigned exactly when
`spectrumData.find(p => p.wavelength === wavelength)` succeeds — and the
inner `Option JsNum` is the possibly-undefined value field of the found
point.  Row keys are JavaScript numbers because the chart mixes measured and
distribution wavelengths; a measured wavelength enters the comparison as the
finite value `fin p.wavelength`. -/
def chartMeasuredCell (s : SelectedSpectrum) (w : JsNum) : Option (Option JsNum) :=
  (s.data.find? (fun p => jsEq (fin p.wavelength) w)).map (chartValue s.type)

/-- The chart cell of a distribution curve at row key `w`: assigned exactly
when `data.find(p => p.wavelength === wavelength)` succeeds, holding the
found point's intensity. -/
def chartDistributionCell (d : List DistributionPoint) (w : JsNum) : Option JsNum :=
  (d.find? (fun p => jsEq p.wavelength w)).map (fun p => p.intensity)

/-- All wavelengths the chart join feeds into its `Set<number>`: every
measured series' wavelengths followed by every overlaid distribution curve's
wavelengths, in the source's traversal order. -/
def chartWavelengths (series : List SelectedSpectrum)
    (distributionData : List (List DistributionPoint)) : List JsNum :=
  series.flatMap (fun s => s.data.map (fun p => fin p.wavelength)) ++
    distributionData.flatMap (fun d => d.map (fun p => p.wavelength))

/-- The ECMAScript ordering induced by the chart's comparator
`(a, b) => a - b`: `a` may stay before `b` unless the comparator is
positive (a NaN comparator result is treated as 0 by the sort
specification). -/
def jsSortLe (a b : JsNum) : Prop := jsGt (jsSub a b) (fin 0) = false

instance : DecidableRel jsSortLe := fun a b =>
  inferInstanceAs (Decidable (jsGt (jsSub a b) (fin 0) = false))

/-- The chart's sorted distinct row keys:
`Array.from(allWavelengths).sort((a, b) => a - b)` over the union of
measured and distribution wavelengths. -/
def sortedChartWavelengths (series : List SelectedSpectrum)
    (distributionData : List (List DistributionPoint)) : List JsNum :=
  List.insertionSort jsSortLe (chartWavelengths series distributionData).dedup

/-- The chart's assembled frame (`chartData`): one row per sorted distinct
wavelength of the union, holding every measured series' cell in series order
and every overlaid distribution curve's cell in distribution order. -/
def chartData (series : List SelectedSpectrum)
    (distributionData : List (List DistributionPoint)) :
    List (JsNum × List (Option (Option JsNum)) × List (Option JsNum)) :=
  (sortedChartWavelengths series distributionData).map (fun w =>
    (w, series.map (fun s => chartMeasuredCell s w),
      distributionData.map (fun d => chartDistributionCell d w)))

/-- A CSV cell of the export: either the empty string or a numeric value
(number-to-string formatting is not modelled, only which value, if any, is
emitted). -/
inductive ExportCell where
  | empty : ExportCell
  | val : JsNum → ExportCell
deriving DecidableEq

/-- The JavaScript expression `point.coefficient || point.normalized || ''`:
first truthy value of the two optional fields, else the empty cell (an absent
field is undefined, hence falsy). -/
def exportCellOfPoint (p : SpectrumData) : ExportCell :=
  match p.coefficient with
  | some v =>
      if jsTruthyV v then ExportCell.val v
      else
        match p.normalized with
        | some u => if jsTruthyV u then ExportCell.val u else ExportCell.empty
        | none => ExportCell.empty
  | none =>
      match p.normalized with
      | some u => if jsTruthyV u then ExportCell.val u else ExportCell.empty
      | none => ExportCell.empty

/-- The CSV cell of series `s` at wavelength `w`:
`point ? (point.coefficient || point.normalized || '') : ''`. -/
def exportCell (s : SelectedSpectrum) (w : ℚ) : ExportCell :=
  match s.data.find? (fun p => decide (p.wavelength = w)) with
  | none => ExportCell.empty
  | some p => exportCellOfPoint p

/-- The rows written by `exportData`, one per sorted distinct wavelength,
holding each series' CSV cell in series order. -/
def exportRows (series : List SelectedSpectrum) : List (ℚ × List ExportCell) :=
  (sortedWavelengths series).map (fun w => (w, series.map (fun s => exportCell s w)))

/-- A concrete stand-in for `Math.exp`, used only to instantiate the `mexp`
parameter where its values are irrelevant. -/
def mexpId : JsNum → JsNum := fun x => x

/-- A concrete two-point curve used to witness the normalizer claims. -/
def normalizePts1 : List DistributionPoint := [⟨fin 400, fin 1⟩, ⟨fin 500, fin 3⟩]

/-- JavaScript truthiness of a possibly-absent numeric field: an absent
field (undefined) is falsy, a present number is truthy unless 0 or NaN. -/
def jsTruthy : Option JsNum → Bool
  | none => false
  | some v => jsTruthyV v

/-- Series A of the spec's assembler example: points at wavelengths 400 and
500. -/
def seriesA : SelectedSpectrum :=
  ⟨"A", SpectrumType.absorption, [⟨400, some (fin 1), none⟩, ⟨500, some (fin 2), none⟩]⟩

/-- Series B of the spec's assembler example: points at wavelengths 500 and
600. -/
def seriesB : SelectedSpectrum :=
  ⟨"B", SpectrumType.absorption, [⟨500, some (fin 3), none⟩, ⟨600, some (fin 4), none⟩]⟩

/-- A series with a single point whose coefficient is 0 (falsy). -/
def seriesZero : SelectedSpectrum :=
  ⟨"C", SpectrumType.absorption, [⟨400, some (fin 0), none⟩]⟩

/-- A Lorentzian request whose `lowWavelength` is NaN and whose optional
fields are all absent. -/
def paramsNanLow : DistributionParams :=
  ⟨DistType.lorentzian, nan, fin 800, none, none, none, none, none, none, none⟩

/-- A Lorentzian request supplying the valid number 0 for `fwhm`, all other
optional fields absent. -/
def paramsZeroFwhm : DistributionParams :=
  ⟨DistType.lorentzian, fin 200, fin 800, none, none, none, none, none,
    some (fin 0), none⟩

section
attribute [local semireducible] Rat.add Rat.mul Rat.sub Rat.inv

namespace JsNum

theorem jsMax2_nan_left (b : JsNum) : jsMax2 nan b = nan := by
  simp [jsMax2]

theorem jsMax2_nan_right (a : JsNum) : jsMax2 a nan = nan := by
  simp [jsMax2]

theorem jsMax2_neginf_left (a : JsNum) : jsMax2 neginf a = a := by
  cases a <;> simp [jsMax2, jsLt]

theorem jsMax2_neginf_right (a : JsNum) : jsMax2 a neginf = a := by
  cases a <;> simp [jsMax2, jsLt]

theorem jsMax2_fin (a b : ℚ) : jsMax2 (fin a) (fin b) = fin (max a b) := by
  simp only [jsMax2, jsLt]
  rcases lt_or_le a b with hab | hab
  · simp [hab, max_eq_right hab.le]
  · simp [not_lt.2 hab, max_eq_left hab]

theorem jsMax2_posinf_left (a : JsNum) (ha : a ≠ nan) : jsMax2 posinf a = posinf := by
  cases a <;> simp_all [jsMax2, jsLt]

theorem jsMax2_posinf_right (a : JsNum) (ha : a ≠ nan) : jsMax2 a posinf = posinf := by
  cases a <;> simp_all [jsMax2, jsLt]

theorem jsMax2_assoc (a b c : JsNum) :
    jsMax2 (jsMax2 a b) c = jsMax2 a (jsMax2 b c) := by
  cases a <;> cases b <;> cases c <;>
    simp [jsMax2_nan_left, jsMax2_nan_right, jsMax2_neginf_left, jsMax2_neginf_right,
      jsMax2_posinf_left, jsMax2_posinf_right, jsMax2_fin, max_assoc]

theorem jsMin2_nan_left (b : JsNum) : jsMin2 nan b = nan := by
  simp [jsMin2]

theorem jsMin2_nan_right (a : JsNum) : jsMin2 a nan = nan := by
  simp [jsMin2]

theorem jsMin2_posinf_left (a : JsNum) : jsMin2 posinf a = a := by
  cases a <;> simp [jsMin2, jsLt]

theorem jsMin2_posinf_right (a : JsNum) : jsMin2 a posinf = a := by
  cases a <;> simp [jsMin2, jsLt]

theorem jsMin2_fin (a b : ℚ) : jsMin2 (fin a) (fin b) = fin (min a b) := by
  simp only [jsMin2, jsLt]
  rcases lt_or_le b a with hab | hab
  · simp [hab, min_eq_right hab.le]
  · simp [not_lt.2 hab, min_eq_left hab]

theorem jsMin2_neginf_left (a : JsNum) (ha : a ≠ nan) : jsMin2 neginf a = neginf := by
  cases a <;> simp_all [jsMin2, jsLt]

theorem jsMin2_neginf_right (a : JsNum) (ha : a ≠ nan) : jsMin2 a neginf = neginf := by
  cases a <;> simp_all [jsMin2, jsLt]

theorem jsMin2_assoc (a b c : JsNum) :
    jsMin2 (jsMin2 a b) c = jsMin2 a (jsMin2 b c) := by
  cases a <;> cases b <;> cases c <;>
    simp [jsMin2_nan_left, jsMin2_nan_right, jsMin2_posinf_left, jsMin2_posinf_right,
      jsMin2_neginf_left, jsMin2_neginf_right, jsMin2_fin, min_assoc]

theorem foldl_jsMax2 (l : List JsNum) (a : JsNum) :
    ∀ b, List.foldl jsMax2 (jsMax2 b a) l = jsMax2 b (List.foldl jsMax2 a l) := by
  induction l generalizing a with
  | nil => intro b; rfl
  | cons c t ih =>
      intro b
      simp only [List.foldl_cons, jsMax2_assoc]
      exact ih (jsMax2 a c) b

theorem jsMax_nil : jsMax [] = neginf := rfl

theorem jsMax_cons (a : JsNum) (l : List JsNum) :
    jsMax (a :: l) = jsMax2 a (jsMax l) := by
  show List.foldl jsMax2 (jsMax2 neginf a) l = jsMax2 a (jsMax l)
  rw [jsMax2_neginf_left]
  have h := foldl_jsMax2 l neginf a
  rwa [jsMax2_neginf_right] at h

theorem foldl_jsMin2 (l : List JsNum) (a : JsNum) :
    ∀ b, List.foldl jsMin2 (jsMin2 b a) l = jsMin2 b (List.foldl jsMin2 a l) := by
  induction l generalizing a with
  | nil => intro b; rfl
  | cons c t ih =>
      intro b
      simp only [List.foldl_cons, jsMin2_assoc]
      exact ih (jsMin2 a c) b

theorem jsMin_nil : jsMin [] = posinf := rfl

theorem jsMin_cons (a : JsNum) (l : List JsNum) :
    jsMin (a :: l) = jsMin2 a (jsMin l) := by
  show List.foldl jsMin2 (jsMin2 posinf a) l = jsMin2 a (jsMin l)
  rw [jsMin2_posinf_left]
  have h := foldl_jsMin2 l posinf a
  rwa [jsMin2_posinf_right] at h

theorem jsMax2_idem (a : JsNum) : jsMax2 a a = a := by
  cases a <;> simp [jsMax2, jsLt, lt_irrefl]

theorem jsMin2_idem (a : JsNum) : jsMin2 a a = a := by
  cases a <;> simp [jsMin2, jsLt, lt_irrefl]

theorem jsMax_map (f : JsNum → JsNum) (hni : f neginf = neginf)
    (hc : ∀ a b, jsMax2 (f a) (f b) = f (jsMax2 a b)) :
    ∀ l : List JsNum, jsMax (l.map f) = f (jsMax l) := by
  intro l
  induction l with
  | nil => simpa [jsMax_nil] using hni.symm
  | cons a t ih => rw [List.map_cons, jsMax_cons, ih, hc, jsMax_cons]

theorem jsMin_map (f : JsNum → JsNum) (hpi : f posinf = posinf)
    (hc : ∀ a b, jsMin2 (f a) (f b) = f (jsMin2 a b)) :
    ∀ l : List JsNum, jsMin (l.map f) = f (jsMin l) := by
  intro l
  induction l with
  | nil => simpa [jsMin_nil] using hpi.symm
  | cons a t ih => rw [List.map_cons, jsMin_cons, ih, hc, jsMin_cons]

theorem jsDiv_posinf_fin {m : ℚ} (hm : 0 < m) : jsDiv posinf (fin m) = posinf := by
  simp [jsDiv, not_lt.2 hm.le]

theorem jsDiv_neginf_fin {m : ℚ} (hm : 0 < m) : jsDiv neginf (fin m) = neginf := by
  simp [jsDiv, not_lt.2 hm.le]

theorem jsDiv_fin_fin (q : ℚ) {m : ℚ} (hm : m ≠ 0) :
    jsDiv (fin q) (fin m) = fin (q / m) := by
  simp [jsDiv, hm]

theorem jsDiv_nan_left (y : JsNum) : jsDiv nan y = nan := by
  cases y <;> rfl

theorem jsSub_nan_left (y : JsNum) : jsSub nan y = nan := by
  cases y <;> rfl

theorem jsSub_posinf_fin (m : ℚ) : jsSub posinf (fin m) = posinf := rfl

theorem jsSub_neginf_fin (m : ℚ) : jsSub neginf (fin m) = neginf := rfl

theorem jsSub_fin_fin (q m : ℚ) : jsSub (fin q) (fin m) = fin (q - m) := by
  show fin (q + -m) = fin (q - m)
  rw [← sub_eq_add_neg]

theorem jsMax2_div_fin {m : ℚ} (hm : 0 < m) (a b : JsNum) :
    jsMax2 (jsDiv a (fin m)) (jsDiv b (fin m)) = jsDiv (jsMax2 a b) (fin m) := by
  have hm0 : m ≠ 0 := hm.ne'
  have hml : ¬ m < 0 := not_lt.2 hm.le
  cases a <;> cases b <;>
    simp only [jsMax2, jsDiv, jsLt, hm0, hml, if_true, if_false, ite_false, ite_true,
      or_true, or_false, true_or, false_or, or_self, reduceCtorEq, decide_eq_true_eq] <;>
    try rfl
  case fin.fin p q =>
    by_cases hpq : p < q
    · rw [if_pos ((div_lt_div_iff_of_pos_right hm).2 hpq), if_pos hpq]
      simp [jsDiv, hm0]
    · rw [if_neg (fun hc => hpq ((div_lt_div_iff_of_pos_right hm).1 hc)), if_neg hpq]
      simp [jsDiv, hm0]

theorem jsMin2_div_fin {m : ℚ} (hm : 0 < m) (a b : JsNum) :
    jsMin2 (jsDiv a (fin m)) (jsDiv b (fin m)) = jsDiv (jsMin2 a b) (fin m) := by
  have hm0 : m ≠ 0 := hm.ne'
  have hml : ¬ m < 0 := not_lt.2 hm.le
  cases a <;> cases b <;>
    simp only [jsMin2, jsDiv, jsLt, hm0, hml, if_true, if_false, ite_false, ite_true,
      or_true, or_false, true_or, false_or, or_self, reduceCtorEq, decide_eq_true_eq] <;>
    try rfl
  case fin.fin p q =>
    by_cases hpq : q < p
    · rw [if_pos ((div_lt_div_iff_of_pos_right hm).2 hpq), if_pos hpq]
      simp [jsDiv, hm0]
    · rw [if_neg (fun hc => hpq ((div_lt_div_iff_of_pos_right hm).1 hc)), if_neg hpq]
      simp [jsDiv, hm0]

theorem jsMax2_sub_fin (m : ℚ) (a b : JsNum) :
    jsMax2 (jsSub a (fin m)) (jsSub b (fin m)) = jsSub (jsMax2 a b) (fin m) := by
  cases a <;> cases b <;>
    simp only [jsSub, jsNeg, jsAdd, jsMax2, jsLt, if_true, if_false, ite_false, ite_true,
      or_true, or_false, true_or, false_or, or_self, reduceCtorEq, decide_eq_true_eq] <;>
    try rfl
  case fin.fin p q =>
    by_cases hpq : p < q
    · rw [if_pos (add_lt_add_right hpq (-m)), if_pos hpq]
    · rw [if_neg (fun hc => hpq (lt_of_add_lt_add_right hc)), if_neg hpq]

theorem jsMin2_sub_fin (m : ℚ) (a b : JsNum) :
    jsMin2 (jsSub a (fin m)) (jsSub b (fin m)) = jsSub (jsMin2 a b) (fin m) := by
  cases a <;> cases b <;>
    simp only [jsSub, jsNeg, jsAdd, jsMin2, jsLt, if_true, if_false, ite_false, ite_true,
      or_true, or_false, true_or, false_or, or_self, reduceCtorEq, decide_eq_true_eq] <;>
    try rfl
  case fin.fin p q =>
    by_cases hpq : q < p
    · rw [if_pos (add_lt_add_right hpq (-m)), if_pos hpq]
    · rw [if_neg (fun hc => hpq (lt_of_add_lt_add_right hc)), if_neg hpq]

theorem jsMax_eq_nan_of_mem {l : List JsNum} (h : nan ∈ l) : jsMax l = nan := by
  induction l with
  | nil => cases h
  | cons a t ih =>
      rw [jsMax_cons]
      rcases List.mem_cons.1 h with rfl | ht
      · exact jsMax2_nan_left _
      · rw [ih ht, jsMax2_nan_right]

theorem jsMin_eq_nan_of_mem {l : List JsNum} (h : nan ∈ l) : jsMin l = nan := by
  induction l with
  | nil => cases h
  | cons a t ih =>
      rw [jsMin_cons]
      rcases List.mem_cons.1 h with rfl | ht
      · exact jsMin2_nan_left _
      · rw [ih ht, jsMin2_nan_right]

theorem jsMax_const {l : List JsNum} {c : JsNum} (hne : l ≠ [])
    (h : ∀ x ∈ l, x = c) : jsMax l = c := by
  induction l with
  | nil => exact absurd rfl hne
  | cons a t ih =>
      rw [jsMax_cons, h a (List.mem_cons_self a t)]
      rcases eq_or_ne t [] with rfl | ht
      · rw [jsMax_nil, jsMax2_neginf_right]
      · rw [ih ht (fun x hx => h x (List.mem_cons_of_mem a hx)), jsMax2_idem]

theorem jsMin_const {l : List JsNum} {c : JsNum} (hne : l ≠ [])
    (h : ∀ x ∈ l, x = c) : jsMin l = c := by
  induction l with
  | nil => exact absurd rfl hne
  | cons a t ih =>
      rw [jsMin_cons, h a (List.mem_cons_self a t)]
      rcases eq_or_ne t [] with rfl | ht
      · rw [jsMin_nil, jsMin2_posinf_right]
      · rw [ih ht (fun x hx => h x (List.mem_cons_of_mem a hx)), jsMin2_idem]

theorem jsMax_all_fin {l : List JsNum} (hne : l ≠ [])
    (h : ∀ x ∈ l, ∃ q : ℚ, x = fin q) :
    ∃ M : ℚ, jsMax l = fin M ∧ fin M ∈ l ∧ ∀ q : ℚ, fin q ∈ l → q ≤ M := by
  induction l with
  | nil => exact absurd rfl hne
  | cons a t ih =>
      obtain ⟨qa, rfl⟩ := h a (List.mem_cons_self a t)
      rcases eq_or_ne t [] with rfl | ht
      · refine ⟨qa, ?_, List.mem_cons_self _ _, ?_⟩
        · rw [jsMax_cons, jsMax_nil, jsMax2_neginf_right]
        · intro q hq
          rcases List.mem_cons.1 hq with hq | hq
          · exact le_of_eq (JsNum.fin.inj hq.symm).symm
          · cases hq
      · obtain ⟨M, hM, hMem, hBound⟩ := ih ht (fun x hx => h x (List.mem_cons_of_mem _ hx))
        refine ⟨max qa M, ?_, ?_, ?_⟩
        · rw [jsMax_cons, hM, jsMax2_fin]
        · rcases max_choice qa M with hmx | hmx
          · rw [hmx]; exact List.mem_cons_self _ _
          · rw [hmx]; exact List.mem_cons_of_mem _ hMem
        · intro q hq
          rcases List.mem_cons.1 hq with hq | hq
          · exact le_max_of_le_left (le_of_eq (JsNum.fin.inj hq))
          · exact le_max_of_le_right (hBound q hq)

theorem jsMin_all_fin {l : List JsNum} (hne : l ≠ [])
    (h : ∀ x ∈ l, ∃ q : ℚ, x = fin q) :
    ∃ m : ℚ, jsMin l = fin m ∧ fin m ∈ l ∧ ∀ q : ℚ, fin q ∈ l → m ≤ q := by
  induction l with
  | nil => exact absurd rfl hne
  | cons a t ih =>
      obtain ⟨qa, rfl⟩ := h a (List.mem_cons_self a t)
      rcases eq_or_ne t [] with rfl | ht
      · refine ⟨qa, ?_, List.mem_cons_self _ _, ?_⟩
        · rw [jsMin_cons, jsMin_nil, jsMin2_posinf_right]
        · intro q hq
          rcases List.mem_cons.1 hq with hq | hq
          · exact le_of_eq (JsNum.fin.inj hq.symm)
          · cases hq
      · obtain ⟨m, hm, hMem, hBound⟩ := ih ht (fun x hx => h x (List.mem_cons_of_mem _ hx))
        refine ⟨min qa m, ?_, ?_, ?_⟩
        · rw [jsMin_cons, hm, jsMin2_fin]
        · rcases min_choice qa m with hmx | hmx
          · rw [hmx]; exact List.mem_cons_self _ _
          · rw [hmx]; exact List.mem_cons_of_mem _ hMem
        · intro q hq
          rcases List.mem_cons.1 hq with hq | hq
          · exact min_le_of_left_le (le_of_eq (JsNum.fin.inj hq).symm)
          · exact min_le_of_right_le (hBound q hq)

end JsNum

theorem map_wavelength_update (l : List DistributionPoint) (g : JsNum → JsNum) :
    (l.map (fun p => { p with intensity := g p.intensity })).map (fun p => p.wavelength) =
      l.map (fun p => p.wavelength) := by
  rw [List.map_map]
  rfl

theorem map_intensity_update (l : List DistributionPoint) (g : JsNum → JsNum) :
    (l.map (fun p => { p with intensity := g p.intensity })).map (fun p => p.intensity) =
      (l.map (fun p => p.intensity)).map g := by
  rw [List.map_map, List.map_map]
  rfl

theorem rescalePoints_of_pos (l : List DistributionPoint)
    (h : jsGt (jsMax (l.map (fun p => p.intensity))) (fin 0) = true) :
    rescalePoints l = l.map (fun p =>
      { p with intensity := jsDiv p.intensity (jsMax (l.map (fun p => p.intensity))) }) := by
  simp only [rescalePoints, h, if_true]

theorem rescalePoints_of_not_pos (l : List DistributionPoint)
    (h : jsGt (jsMax (l.map (fun p => p.intensity))) (fin 0) = false) :
    rescalePoints l = l := by
  simp only [rescalePoints, h, Bool.false_eq_true, if_false]

theorem rescalePoints_map_wavelength (l : List DistributionPoint) :
    (rescalePoints l).map (fun p => p.wavelength) = l.map (fun p => p.wavelength) := by
  cases hgt : jsGt (jsMax (l.map (fun p => p.intensity))) (fin 0) with
  | false => rw [rescalePoints_of_not_pos l hgt]
  | true =>
      rw [rescalePoints_of_pos l hgt,
        map_wavelength_update l (fun v => jsDiv v (jsMax (l.map (fun p => p.intensity))))]

theorem rescalePoints_length (l : List DistributionPoint) :
    (rescalePoints l).length = l.length := by
  have h := congrArg List.length (rescalePoints_map_wavelength l)
  rwa [List.length_map, List.length_map] at h

theorem jsGt_fin_zero (m : ℚ) : jsGt (fin m) (fin 0) = decide (0 < m) := rfl

theorem rescalePoints_max_one {l : List DistributionPoint} {m : ℚ}
    (hM : jsMax (l.map (fun p => p.intensity)) = fin m) (hm : 0 < m) :
    jsMax ((rescalePoints l).map (fun p => p.intensity)) = fin 1 := by
  have hgt : jsGt (jsMax (l.map (fun p => p.intensity))) (fin 0) = true := by
    rw [hM, jsGt_fin_zero]
    exact decide_eq_true hm
  rw [rescalePoints_of_pos l hgt,
    map_intensity_update l (fun v => jsDiv v (jsMax (l.map (fun p => p.intensity)))), hM,
    jsMax_map (fun v => jsDiv v (fin m)) (jsDiv_neginf_fin hm) (jsMax2_div_fin hm), hM,
    jsDiv_fin_fin _ hm.ne', div_self hm.ne']

theorem fin_wavelength_formula {lq hq : ℚ} {n : ℕ} (hd : ((n : ℚ) - 1) ≠ 0) (i : ℕ) :
    jsAdd (fin lq) (jsMul (fin (i : ℚ))
        (jsDiv (jsSub (fin hq) (fin lq)) (fin ((n : ℚ) - 1)))) =
      fin (lq + (i : ℚ) * ((hq - lq) / ((n : ℚ) - 1))) := by
  rw [jsSub_fin_fin, jsDiv_fin_fin _ hd]
  rfl

theorem curve_wavelength_props {curve : List DistributionPoint} {lq hq : ℚ} {n : ℕ}
    (hlh : lq < hq) (hn : 2 ≤ n)
    (hw : curve.map (fun p => p.wavelength) = (List.range n).map (fun i : ℕ =>
      jsAdd (fin lq) (jsMul (fin (i : ℚ))
        (jsDiv (jsSub (fin hq) (fin lq)) (fin ((n : ℚ) - 1)))))) :
    curve.length = n ∧
      curve.map (fun p => p.wavelength) =
        (List.range n).map (fun i : ℕ => fin (lq + (i : ℚ) * ((hq - lq) / ((n : ℚ) - 1)))) ∧
      (curve.map (fun p => p.wavelength)).Pairwise (fun a b => jsLt a b = true) ∧
      (curve.map (fun p => p.wavelength)).head? = some (fin lq) ∧
      (curve.map (fun p => p.wavelength)).getLast? = some (fin hq) := by
  have hn2 : (2 : ℚ) ≤ (n : ℚ) := by exact_mod_cast Nat.cast_le.2 hn
  have hd0 : (0 : ℚ) < (n : ℚ) - 1 := by linarith
  have hd : ((n : ℚ) - 1) ≠ 0 := hd0.ne'
  have hs : 0 < (hq - lq) / ((n : ℚ) - 1) := div_pos (by linarith) hd0
  have hw2 : curve.map (fun p => p.wavelength) =
      (List.range n).map (fun i : ℕ => fin (lq + (i : ℚ) * ((hq - lq) / ((n : ℚ) - 1)))) := by
    rw [hw]
    exact List.map_congr_left (fun i _ => fin_wavelength_formula hd i)
  have hlen : curve.length = n := by
    have h := congrArg List.length hw2
    rwa [List.length_map, List.length_map, List.length_range] at h
  refine ⟨hlen, hw2, ?_, ?_, ?_⟩
  · rw [hw2, List.pairwise_map]
    refine (List.pairwise_lt_range n).imp ?_
    intro i j hij
    show jsLt (fin _) (fin _) = true
    simp only [jsLt, decide_eq_true_eq]
    have : (i : ℚ) < (j : ℚ) := by exact_mod_cast hij
    have := mul_lt_mul_of_pos_right this hs
    linarith
  · rw [hw2, List.head?_map, List.head?_range]
    have hn0 : n ≠ 0 := by omega
    simp [hn0]
  · rw [hw2, List.getLast?_eq_getElem?, List.length_map, List.length_range,
      List.getElem?_map, List.getElem?_range (by omega : n - 1 < n)]
    have hc : ((n - 1 : ℕ) : ℚ) = (n : ℚ) - 1 := by
      have : (1 : ℕ) ≤ n := by omega
      push_cast [this]
      ring
    simp only [Option.map_some']
    rw [hc, mul_div_cancel₀ _ hd]
    norm_num

theorem blackbodyRawPoints_map_wavelength (mexp : JsNum → JsNum)
    (lo hi temperature : JsNum) (n : ℕ) :
    (blackbodyRawPoints mexp lo hi temperature n).map (fun p => p.wavelength) =
      (List.range n).map (fun i : ℕ =>
        jsAdd lo (jsMul (fin (i : ℚ)) (jsDiv (jsSub hi lo) (fin ((n : ℚ) - 1))))) := by
  simp only [blackbodyRawPoints]
  rw [List.map_map]
  rfl

theorem gaussianRawPoints_map_wavelength (mexp : JsNum → JsNum)
    (lo hi pk sd mu : JsNum) (n : ℕ) :
    (gaussianRawPoints mexp lo hi pk sd mu n).map (fun p => p.wavelength) =
      (List.range n).map (fun i : ℕ =>
        jsAdd lo (jsMul (fin (i : ℚ)) (jsDiv (jsSub hi lo) (fin ((n : ℚ) - 1))))) := by
  simp only [gaussianRawPoints]
  rw [List.map_map]
  rfl

theorem lorentzianRawPoints_map_wavelength (lo hi pk fw mu : JsNum) (n : ℕ) :
    (lorentzianRawPoints lo hi pk fw mu n).map (fun p => p.wavelength) =
      (List.range n).map (fun i : ℕ =>
        jsAdd lo (jsMul (fin (i : ℚ)) (jsDiv (jsSub hi lo) (fin ((n : ℚ) - 1))))) := by
  simp only [lorentzianRawPoints]
  rw [List.map_map]
  rfl

theorem calculateBlackbodySpectrum_map_wavelength (mexp : JsNum → JsNum)
    (lo hi temperature : JsNum) (n : ℕ) :
    (calculateBlackbodySpectrum mexp lo hi temperature n).map (fun p => p.wavelength) =
      (List.range n).map (fun i : ℕ =>
        jsAdd lo (jsMul (fin (i : ℚ)) (jsDiv (jsSub hi lo) (fin ((n : ℚ) - 1))))) := by
  rw [calculateBlackbodySpectrum, rescalePoints_map_wavelength,
    blackbodyRawPoints_map_wavelength]

theorem calculateGaussianSpectrum_map_wavelength (mexp : JsNum → JsNum)
    (lo hi pk sd mu : JsNum) (n : ℕ) :
    (calculateGaussianSpectrum mexp lo hi pk sd mu n).map (fun p => p.wavelength) =
      (List.range n).map (fun i : ℕ =>
        jsAdd lo (jsMul (fin (i : ℚ)) (jsDiv (jsSub hi lo) (fin ((n : ℚ) - 1))))) := by
  rw [calculateGaussianSpectrum, rescalePoints_map_wavelength,
    gaussianRawPoints_map_wavelength]

theorem calculateLorentzianSpectrum_map_wavelength (lo hi pk fw mu : JsNum) (n : ℕ) :
    (calculateLorentzianSpectrum lo hi pk fw mu n).map (fun p => p.wavelength) =
      (List.range n).map (fun i : ℕ =>
        jsAdd lo (jsMul (fin (i : ℚ)) (jsDiv (jsSub hi lo) (fin ((n : ℚ) - 1))))) := by
  rw [calculateLorentzianSpectrum, rescalePoints_map_wavelength,
    lorentzianRawPoints_map_wavelength]

/-- C2: for each of the three samplers called with `lowWavelength <
highWavelength` and `numPoints ≥ 2`, the returned curve has exactly
`numPoints` points, its wavelengths form the evenly spaced grid
`low + i * ((high - low) / (numPoints - 1))`, they are strictly ascending,
the first wavelength equals `lowWavelength` and the last equals
`highWavelength`. -/
theorem claim_C2_samplers_grid :
    (∀ (mexp : JsNum → JsNum) (lq hq : ℚ) (temperature : JsNum) (n : ℕ),
      lq < hq → 2 ≤ n →
      (calculateBlackbodySpectrum mexp (fin lq) (fin hq) temperature n).length = n ∧
      (calculateBlackbodySpectrum mexp (fin lq) (fin hq) temperature n).map
          (fun p => p.wavelength) =
        (List.range n).map (fun i : ℕ => fin (lq + (i : ℚ) * ((hq - lq) / ((n : ℚ) - 1)))) ∧
      ((calculateBlackbodySpectrum mexp (fin lq) (fin hq) temperature n).map
          (fun p => p.wavelength)).Pairwise (fun a b => jsLt a b = true) ∧
      ((calculateBlackbodySpectrum mexp (fin lq) (fin hq) temperature n).map
          (fun p => p.wavelength)).head? = some (fin lq) ∧
      ((calculateBlackbodySpectrum mexp (fin lq) (fin hq) temperature n).map
          (fun p => p.wavelength)).getLast? = some (fin hq)) ∧
    (∀ (mexp : JsNum → JsNum) (lq hq : ℚ) (pk sd mu : JsNum) (n : ℕ),
      lq < hq → 2 ≤ n →
      (calculateGaussianSpectrum mexp (fin lq) (fin hq) pk sd mu n).length = n ∧
      (calculateGaussianSpectrum mexp (fin lq) (fin hq) pk sd mu n).map
          (fun p => p.wavelength) =
        (List.range n).map (fun i : ℕ => fin (lq + (i : ℚ) * ((hq - lq) / ((n : ℚ) - 1)))) ∧
      ((calculateGaussianSpectrum mexp (fin lq) (fin hq) pk sd mu n).map
          (fun p => p.wavelength)).Pairwise (fun a b => jsLt a b = true) ∧
      ((calculateGaussianSpectrum mexp (fin lq) (fin hq) pk sd mu n).map
          (fun p => p.wavelength)).head? = some (fin lq) ∧
      ((calculateGaussianSpectrum mexp (fin lq) (fin hq) pk sd mu n).map
          (fun p => p.wavelength)).getLast? = some (fin hq)) ∧
    (∀ (lq hq : ℚ) (pk fw mu : JsNum) (n : ℕ),
      lq < hq → 2 ≤ n →
      (calculateLorentzianSpectrum (fin lq) (fin hq) pk fw mu n).length = n ∧
      (calculateLorentzianSpectrum (fin lq) (fin hq) pk fw mu n).map
          (fun p => p.wavelength) =
        (List.range n).map (fun i : ℕ => fin (lq + (i : ℚ) * ((hq - lq) / ((n : ℚ) - 1)))) ∧
      ((calculateLorentzianSpectrum (fin lq) (fin hq) pk fw mu n).map
          (fun p => p.wavelength)).Pairwise (fun a b => jsLt a b = true) ∧
      ((calculateLorentzianSpectrum (fin lq) (fin hq) pk fw mu n).map
          (fun p => p.wavelength)).head? = some (fin lq) ∧
      ((calculateLorentzianSpectrum (fin lq) (fin hq) pk fw mu n).map
          (fun p => p.wavelength)).getLast? = some (fin hq)) := by
  refine ⟨?_, ?_, ?_⟩
  · intro mexp lq hq temperature n hlh hn
    have h := curve_wavelength_props hlh hn
      (calculateBlackbodySpectrum_map_wavelength mexp (fin lq) (fin hq) temperature n)
    exact h
  · intro mexp lq hq pk sd mu n hlh hn
    have h := curve_wavelength_props hlh hn
      (calculateGaussianSpectrum_map_wavelength mexp (fin lq) (fin hq) pk sd mu n)
    exact h
  · intro lq hq pk fw mu n hlh hn
    have h := curve_wavelength_props hlh hn
      (calculateLorentzianSpectrum_map_wavelength (fin lq) (fin hq) pk fw mu n)
    exact h

/-- Witness for C2: the Lorentzian sampler on `[0, 1]` with 2 points. -/
theorem claim_C2_witness :
    ((0 : ℚ) < 1 ∧ 2 ≤ 2) ∧
      ((calculateLorentzianSpectrum (fin 0) (fin 1) (fin 0) (fin 2) (fin 1) 2).length = 2 ∧
        (calculateLorentzianSpectrum (fin 0) (fin 1) (fin 0) (fin 2) (fin 1) 2).map
            (fun p => p.wavelength) =
          (List.range 2).map
            (fun i : ℕ => fin (0 + (i : ℚ) * ((1 - 0) / ((2 : ℚ) - 1)))) ∧
        ((calculateLorentzianSpectrum (fin 0) (fin 1) (fin 0) (fin 2) (fin 1) 2).map
            (fun p => p.wavelength)).Pairwise (fun a b => jsLt a b = true) ∧
        ((calculateLorentzianSpectrum (fin 0) (fin 1) (fin 0) (fin 2) (fin 1) 2).map
            (fun p => p.wavelength)).head? = some (fin 0) ∧
        ((calculateLorentzianSpectrum (fin 0) (fin 1) (fin 0) (fin 2) (fin 1) 2).map
            (fun p => p.wavelength)).getLast? = some (fin 1)) :=
  ⟨⟨by norm_num, le_refl 2⟩,
    claim_C2_samplers_grid.2.2 0 1 (fin 0) (fin 2) (fin 1) 2 (by norm_num) (le_refl 2)⟩

theorem normalizeDistribution_nil : normalizeDistribution [] = [] := rfl

theorem normalizeDistribution_eq_branch {points : List DistributionPoint}
    (hne : points.length ≠ 0)
    (heq : jsEq (jsMax (points.map (fun p => p.intensity)))
      (jsMin (points.map (fun p => p.intensity))) = true) :
    normalizeDistribution points =
      points.map (fun p => { p with intensity := fin (1 / 2) }) := by
  simp only [normalizeDistribution, hne, if_false, heq, if_true]

theorem normalizeDistribution_formula_branch {points : List DistributionPoint}
    (hne : points.length ≠ 0)
    (heq : jsEq (jsMax (points.map (fun p => p.intensity)))
      (jsMin (points.map (fun p => p.intensity))) = false) :
    normalizeDistribution points =
      points.map (fun p => (⟨p.wavelength,
        jsDiv (jsSub p.intensity (jsMin (points.map (fun p => p.intensity))))
          (jsSub (jsMax (points.map (fun p => p.intensity)))
            (jsMin (points.map (fun p => p.intensity))))⟩ : DistributionPoint)) := by
  simp only [normalizeDistribution, hne, if_false, heq, Bool.false_eq_true]

/-- C1: on a non-empty input, `normalizeDistribution` keeps the length and
replaces each intensity `v` by `(v - min) / (max - min)` for the `Math.max` /
`Math.min` of the input intensities, except that when `max === min` every
output intensity is exactly 0.5. -/
theorem claim_C1_normalize (points : List DistributionPoint) (hne : points ≠ []) :
    (normalizeDistribution points).length = points.length ∧
      normalizeDistribution points = points.map (fun p => (⟨p.wavelength,
        if jsEq (jsMax (points.map (fun p => p.intensity)))
            (jsMin (points.map (fun p => p.intensity))) then fin (1 / 2)
          else
            jsDiv (jsSub p.intensity (jsMin (points.map (fun p => p.intensity))))
              (jsSub (jsMax (points.map (fun p => p.intensity)))
                (jsMin (points.map (fun p => p.intensity))))⟩ : DistributionPoint)) := by
  have hl : points.length ≠ 0 := fun hc => hne (List.length_eq_zero.1 hc)
  cases heq : jsEq (jsMax (points.map (fun p => p.intensity)))
      (jsMin (points.map (fun p => p.intensity))) with
  | true =>
      rw [normalizeDistribution_eq_branch hl heq]
      simp only [heq, if_true, List.length_map]
      exact ⟨trivial, trivial⟩
  | false =>
      rw [normalizeDistribution_formula_branch hl heq]
      simp only [heq, Bool.false_eq_true, if_false, List.length_map]
      exact ⟨trivial, trivial⟩

/-- Witness for C1: a concrete two-point curve. -/
theorem claim_C1_witness :
    (normalizePts1 ≠ [] ∧
      ((normalizeDistribution normalizePts1).length = normalizePts1.length ∧
        normalizeDistribution normalizePts1 = normalizePts1.map (fun p => (⟨p.wavelength,
          if jsEq (jsMax (normalizePts1.map (fun p => p.intensity)))
              (jsMin (normalizePts1.map (fun p => p.intensity))) then fin (1 / 2)
            else
              jsDiv (jsSub p.intensity (jsMin (normalizePts1.map (fun p => p.intensity))))
                (jsSub (jsMax (normalizePts1.map (fun p => p.intensity)))
                  (jsMin (normalizePts1.map (fun p => p.intensity))))⟩ :
          DistributionPoint)))) :=
  ⟨by decide, claim_C1_normalize normalizePts1 (by decide)⟩

/-- C9: `normalizeDistribution` changes only intensities: the length and the
wavelength at every position are preserved, and the empty input yields the
empty output. -/
theorem claim_C9_normalize_frame (points : List DistributionPoint) :
    (normalizeDistribution points).length = points.length ∧
      (normalizeDistribution points).map (fun p => p.wavelength) =
        points.map (fun p => p.wavelength) ∧
      normalizeDistribution ([] : List DistributionPoint) = [] := by
  rcases eq_or_ne points.length 0 with hl | hl
  · rw [List.length_eq_zero.1 hl]
    exact ⟨rfl, rfl, rfl⟩
  · cases heq : jsEq (jsMax (points.map (fun p => p.intensity)))
        (jsMin (points.map (fun p => p.intensity))) with
    | true =>
        rw [normalizeDistribution_eq_branch hl heq]
        exact ⟨List.length_map _ _, map_wavelength_update points (fun _ => fin (1 / 2)), rfl⟩
    | false =>
        rw [normalizeDistribution_formula_branch hl heq]
        refine ⟨List.length_map _ _, ?_, rfl⟩
        exact map_wavelength_update points (fun v =>
          jsDiv (jsSub v (jsMin (points.map (fun p => p.intensity))))
            (jsSub (jsMax (points.map (fun p => p.intensity)))
              (jsMin (points.map (fun p => p.intensity)))))

/-- C3: for each sampler, whenever the raw curve's maximum intensity is a
finite rational strictly greater than 0, the maximum intensity of the
returned (internally rescaled) curve is exactly 1. -/
theorem claim_C3_peak_rescale :
    (∀ (mexp : JsNum → JsNum) (lo hi temperature : JsNum) (n : ℕ) (m : ℚ),
      jsMax ((blackbodyRawPoints mexp lo hi temperature n).map (fun p => p.intensity)) =
        fin m → 0 < m →
      jsMax ((calculateBlackbodySpectrum mexp lo hi temperature n).map
        (fun p => p.intensity)) = fin 1) ∧
    (∀ (mexp : JsNum → JsNum) (lo hi pk sd mu : JsNum) (n : ℕ) (m : ℚ),
      jsMax ((gaussianRawPoints mexp lo hi pk sd mu n).map (fun p => p.intensity)) =
        fin m → 0 < m →
      jsMax ((calculateGaussianSpectrum mexp lo hi pk sd mu n).map
        (fun p => p.intensity)) = fin 1) ∧
    (∀ (lo hi pk fw mu : JsNum) (n : ℕ) (m : ℚ),
      jsMax ((lorentzianRawPoints lo hi pk fw mu n).map (fun p => p.intensity)) =
        fin m → 0 < m →
      jsMax ((calculateLorentzianSpectrum lo hi pk fw mu n).map
        (fun p => p.intensity)) = fin 1) := by
  refine ⟨?_, ?_, ?_⟩
  · intro mexp lo hi temperature n m hM hm
    rw [calculateBlackbodySpectrum]
    exact rescalePoints_max_one hM hm
  · intro mexp lo hi pk sd mu n m hM hm
    rw [calculateGaussianSpectrum]
    exact rescalePoints_max_one hM hm
  · intro lo hi pk fw mu n m hM hm
    rw [calculateLorentzianSpectrum]
    exact rescalePoints_max_one hM hm

/-- Witness for C3: a two-point Lorentzian curve whose raw maximum is
`1 / Math.PI > 0`. -/
theorem claim_C3_witness :
    (jsMax ((lorentzianRawPoints (fin 0) (fin 1) (fin 0) (fin 2) (fin 1) 2).map
        (fun p => p.intensity)) = fin (1 / jsPI) ∧ 0 < (1 / jsPI : ℚ)) ∧
      jsMax ((calculateLorentzianSpectrum (fin 0) (fin 1) (fin 0) (fin 2) (fin 1) 2).map
        (fun p => p.intensity)) = fin 1 :=
  ⟨⟨by decide, by decide⟩,
    claim_C3_peak_rescale.2.2 (fin 0) (fin 1) (fin 0) (fin 2) (fin 1) 2 (1 / jsPI)
      (by decide) (by decide)⟩

/-- C5 counterexample: a Lorentzian curve whose raw maximum is `+Infinity`.
The claim states the rescale is skipped (the sampler returns the raw curve
unchanged) whenever the maximum is non-finite, but the code's `max > 0` test
is true at `+Infinity`, so the division still runs and the output differs
from the raw curve (every `Infinity / Infinity` becomes NaN). -/
theorem claim_C5_counterexample :
    calculateLorentzianSpectrum (fin 0) (fin 1) (fin 0) (fin 2) posinf 2 ≠
        lorentzianRawPoints (fin 0) (fin 1) (fin 0) (fin 2) posinf 2 ∧
      jsMax ((lorentzianRawPoints (fin 0) (fin 1) (fin 0) (fin 2) posinf 2).map
        (fun p => p.intensity)) = posinf := by
  exact ⟨by decide, by decide⟩

/-- C5 (amended): each sampler returns `rescalePoints` of its raw curve, and
the rescale divides every intensity by the maximum intensity exactly when
`max > 0` holds in JavaScript: it is skipped when the maximum is NaN,
`-Infinity` or a finite value ≤ 0, but when the maximum is `+Infinity` the
division still runs (and when the maximum is a finite `m > 0` every
intensity is divided by `m`).  The last group of conjuncts spells out the
effect of that `+Infinity` division: finite intensities become 0 and
non-finite ones become NaN. -/
theorem claim_C5_rescale_condition :
    (∀ (mexp : JsNum → JsNum) (lo hi temperature : JsNum) (n : ℕ),
      calculateBlackbodySpectrum mexp lo hi temperature n =
        rescalePoints (blackbodyRawPoints mexp lo hi temperature n)) ∧
    (∀ (mexp : JsNum → JsNum) (lo hi pk sd mu : JsNum) (n : ℕ),
      calculateGaussianSpectrum mexp lo hi pk sd mu n =
        rescalePoints (gaussianRawPoints mexp lo hi pk sd mu n)) ∧
    (∀ (lo hi pk fw mu : JsNum) (n : ℕ),
      calculateLorentzianSpectrum lo hi pk fw mu n =
        rescalePoints (lorentzianRawPoints lo hi pk fw mu n)) ∧
    (∀ points : List DistributionPoint,
      (jsMax (points.map (fun p => p.intensity)) = nan → rescalePoints points = points) ∧
      (jsMax (points.map (fun p => p.intensity)) = neginf → rescalePoints points = points) ∧
      (∀ q : ℚ, q ≤ 0 → jsMax (points.map (fun p => p.intensity)) = fin q →
        rescalePoints points = points) ∧
      (jsMax (points.map (fun p => p.intensity)) = posinf →
        rescalePoints points = points.map (fun p =>
          (⟨p.wavelength, jsDiv p.intensity posinf⟩ : DistributionPoint))) ∧
      (∀ m : ℚ, 0 < m → jsMax (points.map (fun p => p.intensity)) = fin m →
        rescalePoints points = points.map (fun p =>
          (⟨p.wavelength, jsDiv p.intensity (fin m)⟩ : DistributionPoint)))) ∧
    ((∀ q : ℚ, jsDiv (fin q) posinf = fin 0) ∧ jsDiv posinf posinf = nan ∧
      jsDiv neginf posinf = nan ∧ jsDiv nan posinf = nan) := by
  refine ⟨fun _ _ _ _ _ => rfl, fun _ _ _ _ _ _ _ => rfl, fun _ _ _ _ _ _ => rfl, ?_,
    fun q => rfl, rfl, rfl, rfl⟩
  intro points
  refine ⟨?_, ?_, ?_, ?_, ?_⟩
  · intro hM
    refine rescalePoints_of_not_pos points ?_
    rw [hM]
    rfl
  · intro hM
    refine rescalePoints_of_not_pos points ?_
    rw [hM]
    rfl
  · intro q hq hM
    refine rescalePoints_of_not_pos points ?_
    rw [hM, jsGt_fin_zero]
    exact decide_eq_false (not_lt.2 hq)
  · intro hM
    have h := rescalePoints_of_pos points (by rw [hM]; rfl)
    rw [hM] at h
    exact h
  · intro m hm hM
    have h := rescalePoints_of_pos points (by rw [hM, jsGt_fin_zero]; exact decide_eq_true hm)
    rw [hM] at h
    exact h

/-- Witness for C5: a one-point curve with negative intensity, where the
rescale is skipped. -/
theorem claim_C5_witness :
    ((-1 : ℚ) ≤ 0 ∧
        jsMax (([⟨fin 0, fin (-1)⟩] : List DistributionPoint).map
          (fun p => p.intensity)) = fin (-1)) ∧
      rescalePoints [⟨fin 0, fin (-1)⟩] = [⟨fin 0, fin (-1)⟩] :=
  ⟨⟨by norm_num, by decide⟩,
    (claim_C5_rescale_condition.2.2.2.1 [⟨fin 0, fin (-1)⟩]).2.2.1 (-1) (by norm_num)
      (by decide)⟩

theorem jsSub_nan_right (v : JsNum) : jsSub v nan = nan := by
  cases v <;> rfl

theorem jsEq_fin_fin (a b : ℚ) : jsEq (fin a) (fin b) = decide (a = b) := by
  show decide (fin a = fin b) = decide (a = b)
  exact decide_eq_decide.2 ⟨fun h => JsNum.fin.inj h, fun h => h ▸ rfl⟩

theorem jsIsFinite_iff (v : JsNum) : jsIsFinite v = true ↔ ∃ q : ℚ, v = fin q := by
  cases v <;> simp [jsIsFinite]

/-- C6 counterexample: the single-point curve with NaN intensity consists
only of non-finite entries, yet its normalization is neither empty nor
all-0.5 and still contains NaN: `Math.max`/`Math.min` do not exclude
non-finite entries, and `NaN === NaN` is false, so the formula branch runs
and propagates NaN. -/
theorem claim_C6_counterexample :
    ([⟨fin 0, nan⟩] : List DistributionPoint).map (fun p => jsIsFinite p.intensity) =
        [false] ∧
      normalizeDistribution [⟨fin 0, nan⟩] = [⟨fin 0, nan⟩] ∧
      normalizeDistribution [⟨fin 0, nan⟩] ≠ [] ∧
      (normalizeDistribution [⟨fin 0, nan⟩]).map (fun p => p.intensity) ≠ [fin (1 / 2)] ∧
      (normalizeDistribution [⟨fin 0, nan⟩]).map (fun p => p.intensity) = [nan] :=
  ⟨by decide, by decide, by decide, by decide, by decide⟩

/-- C6 (amended): normalization is total (it never raises), and non-finite
entries are included in the `Math.max`/`Math.min` search.  A non-empty curve
whose intensities are all `+Infinity` (or all `-Infinity`) satisfies
`max === min` and normalizes to all 0.5, but a curve containing a NaN
intensity normalizes to all-NaN intensities. -/
theorem claim_C6_nonfinite :
    (∀ points : List DistributionPoint, points ≠ [] →
      (∀ p ∈ points, p.intensity = posinf) →
      ∀ p ∈ normalizeDistribution points, p.intensity = fin (1 / 2)) ∧
    (∀ points : List DistributionPoint, points ≠ [] →
      (∀ p ∈ points, p.intensity = neginf) →
      ∀ p ∈ normalizeDistribution points, p.intensity = fin (1 / 2)) ∧
    (∀ points : List DistributionPoint, (∃ p ∈ points, p.intensity = nan) →
      ∀ p ∈ normalizeDistribution points, p.intensity = nan) := by
  have hconst : ∀ (points : List DistributionPoint) (c : JsNum), points ≠ [] →
      (∀ p ∈ points, p.intensity = c) → c ≠ nan →
      ∀ p ∈ normalizeDistribution points, p.intensity = fin (1 / 2) := by
    intro points c hne hall hcn
    have hl : points.length ≠ 0 := fun hc => hne (List.length_eq_zero.1 hc)
    have hmne : points.map (fun p => p.intensity) ≠ [] :=
      fun hc => hne (List.map_eq_nil_iff.1 hc)
    have hmall : ∀ x ∈ points.map (fun p => p.intensity), x = c := by
      intro x hx
      obtain ⟨p, hp, rfl⟩ := List.mem_map.1 hx
      exact hall p hp
    have hmax : jsMax (points.map (fun p => p.intensity)) = c := jsMax_const hmne hmall
    have hmin : jsMin (points.map (fun p => p.intensity)) = c := jsMin_const hmne hmall
    have heq : jsEq (jsMax (points.map (fun p => p.intensity)))
        (jsMin (points.map (fun p => p.intensity))) = true := by
      rw [hmax, hmin]
      cases c with
      | nan => exact absurd rfl hcn
      | posinf => rfl
      | neginf => rfl
      | fin q => rw [jsEq_fin_fin]; exact decide_eq_true rfl
    rw [normalizeDistribution_eq_branch hl heq]
    intro p hp
    obtain ⟨q, hq, rfl⟩ := List.mem_map.1 hp
    rfl
  refine ⟨?_, ?_, ?_⟩
  · intro points hne hall
    exact hconst points posinf hne hall (fun hc => JsNum.noConfusion hc)
  · intro points hne hall
    exact hconst points neginf hne hall (fun hc => JsNum.noConfusion hc)
  · intro points hex pt hpt
    obtain ⟨p0, hp0, hint⟩ := hex
    have hmem : nan ∈ points.map (fun p => p.intensity) :=
      List.mem_map.2 ⟨p0, hp0, hint⟩
    have hmax : jsMax (points.map (fun p => p.intensity)) = nan :=
      jsMax_eq_nan_of_mem hmem
    have hmin : jsMin (points.map (fun p => p.intensity)) = nan :=
      jsMin_eq_nan_of_mem hmem
    have hl : points.length ≠ 0 :=
      fun hc => (List.ne_nil_of_mem hp0) (List.length_eq_zero.1 hc)
    have heq : jsEq (jsMax (points.map (fun p => p.intensity)))
        (jsMin (points.map (fun p => p.intensity))) = false := by
      rw [hmax, hmin]
      rfl
    rw [normalizeDistribution_formula_branch hl heq] at hpt
    obtain ⟨q, hq, rfl⟩ := List.mem_map.1 hpt
    show jsDiv (jsSub q.intensity (jsMin (points.map (fun p => p.intensity))))
      (jsSub (jsMax (points.map (fun p => p.intensity)))
        (jsMin (points.map (fun p => p.intensity)))) = nan
    rw [hmax, hmin, jsSub_nan_right, jsSub_nan_right]
    rfl

/-- Witness for C6: a concrete all-`+Infinity` curve normalizes to all 0.5,
and a concrete curve containing NaN normalizes to all NaN. -/
theorem claim_C6_witness :
    (([⟨fin 0, posinf⟩, ⟨fin 1, posinf⟩] : List DistributionPoint) ≠ [] ∧
        (∀ p ∈ ([⟨fin 0, posinf⟩, ⟨fin 1, posinf⟩] : List DistributionPoint),
          p.intensity = posinf) ∧
        (∃ p ∈ ([⟨fin 2, fin 5⟩, ⟨fin 3, nan⟩] : List DistributionPoint),
          p.intensity = nan)) ∧
      (∀ p ∈ normalizeDistribution [⟨fin 0, posinf⟩, ⟨fin 1, posinf⟩],
        p.intensity = fin (1 / 2)) ∧
      (∀ p ∈ normalizeDistribution [⟨fin 2, fin 5⟩, ⟨fin 3, nan⟩], p.intensity = nan) :=
  ⟨⟨by decide, by decide, by decide⟩,
    claim_C6_nonfinite.1 [⟨fin 0, posinf⟩, ⟨fin 1, posinf⟩] (by decide) (by decide),
    claim_C6_nonfinite.2.2 [⟨fin 2, fin 5⟩, ⟨fin 3, nan⟩] (by decide)⟩

/-- C8 counterexample: for the curve `[(0, Infinity), (1, 0)]` the first
normalization yields `[NaN, 0]` (the `Infinity/Infinity` cell becomes NaN),
and normalizing that output again yields `[NaN, NaN]`, so
`normalize (normalize x) ≠ normalize x`. -/
theorem claim_C8_counterexample :
    normalizeDistribution (normalizeDistribution [⟨fin 0, posinf⟩, ⟨fin 1, fin 0⟩]) ≠
        normalizeDistribution [⟨fin 0, posinf⟩, ⟨fin 1, fin 0⟩] ∧
      normalizeDistribution [⟨fin 0, posinf⟩, ⟨fin 1, fin 0⟩] =
        [⟨fin 0, nan⟩, ⟨fin 1, fin 0⟩] ∧
      normalizeDistribution (normalizeDistribution [⟨fin 0, posinf⟩, ⟨fin 1, fin 0⟩]) =
        [⟨fin 0, nan⟩, ⟨fin 1, nan⟩] :=
  ⟨by decide, by decide, by decide⟩

/-- C8 (amended): re-applying `normalizeDistribution` to its own output is a
no-op for every curve whose intensities are all finite; when a non-finite
intensity is present the equation can fail (see the counterexample). -/
theorem claim_C8_normalize_noop (points : List DistributionPoint)
    (hfin : ∀ p ∈ points, jsIsFinite p.intensity = true) :
    normalizeDistribution (normalizeDistribution points) =
      normalizeDistribution points := by
  rcases eq_or_ne points [] with rfl | hne
  · rfl
  have hl : points.length ≠ 0 := fun hc => hne (List.length_eq_zero.1 hc)
  have hIne : points.map (fun p => p.intensity) ≠ [] :=
    fun hc => hne (List.map_eq_nil_iff.1 hc)
  have hIfin : ∀ x ∈ points.map (fun p => p.intensity), ∃ q : ℚ, x = fin q := by
    intro x hx
    obtain ⟨p, hp, rfl⟩ := List.mem_map.1 hx
    exact (jsIsFinite_iff _).1 (hfin p hp)
  obtain ⟨M, hM, hMmem, hMbd⟩ := jsMax_all_fin hIne hIfin
  obtain ⟨m, hm, hmmem, hmbd⟩ := jsMin_all_fin hIne hIfin
  have hmM : m ≤ M := hMbd m hmmem
  by_cases hMm : M = m
  · have heq : jsEq (jsMax (points.map (fun p => p.intensity)))
        (jsMin (points.map (fun p => p.intensity))) = true := by
      rw [hM, hm, jsEq_fin_fin, hMm]
      exact decide_eq_true rfl
    rw [normalizeDistribution_eq_branch hl heq]
    have hl1 : (points.map (fun p =>
        ({ p with intensity := fin (1 / 2) } : DistributionPoint))).length ≠ 0 := by
      rwa [List.length_map]
    have hI1 : (points.map (fun p =>
          ({ p with intensity := fin (1 / 2) } : DistributionPoint))).map
          (fun p => p.intensity) =
        (points.map (fun p => p.intensity)).map (fun _ => fin (1 / 2)) :=
      map_intensity_update points (fun _ => fin (1 / 2))
    have hI1ne : (points.map (fun p =>
        ({ p with intensity := fin (1 / 2) } : DistributionPoint))).map
          (fun p => p.intensity) ≠ [] := by
      rw [hI1]
      intro hc
      exact hIne (List.map_eq_nil_iff.1 hc)
    have hI1all : ∀ x ∈ (points.map (fun p =>
        ({ p with intensity := fin (1 / 2) } : DistributionPoint))).map
          (fun p => p.intensity), x = fin (1 / 2) := by
      rw [hI1]
      intro x hx
      obtain ⟨y, hy, rfl⟩ := List.mem_map.1 hx
      rfl
    have heq1 : jsEq
        (jsMax ((points.map (fun p =>
          ({ p with intensity := fin (1 / 2) } : DistributionPoint))).map
            (fun p => p.intensity)))
        (jsMin ((points.map (fun p =>
          ({ p with intensity := fin (1 / 2) } : DistributionPoint))).map
            (fun p => p.intensity))) = true := by
      rw [jsMax_const hI1ne hI1all, jsMin_const hI1ne hI1all, jsEq_fin_fin]
      exact decide_eq_true rfl
    rw [normalizeDistribution_eq_branch hl1 heq1, List.map_map]
    rfl
  · have hlt : m < M := lt_of_le_of_ne hmM (fun hc => hMm hc.symm)
    have hd : (0 : ℚ) < M - m := by linarith
    have heq : jsEq (jsMax (points.map (fun p => p.intensity)))
        (jsMin (points.map (fun p => p.intensity))) = false := by
      rw [hM, hm, jsEq_fin_fin]
      exact decide_eq_false hMm
    rw [normalizeDistribution_formula_branch hl heq, hM, hm]
    have hcommF : ∀ a b : JsNum,
        jsMax2 (jsDiv (jsSub a (fin m)) (jsSub (fin M) (fin m)))
            (jsDiv (jsSub b (fin m)) (jsSub (fin M) (fin m))) =
          jsDiv (jsSub (jsMax2 a b) (fin m)) (jsSub (fin M) (fin m)) := by
      intro a b
      rw [jsSub_fin_fin, jsMax2_div_fin hd, jsMax2_sub_fin]
    have hcommFmin : ∀ a b : JsNum,
        jsMin2 (jsDiv (jsSub a (fin m)) (jsSub (fin M) (fin m)))
            (jsDiv (jsSub b (fin m)) (jsSub (fin M) (fin m))) =
          jsDiv (jsSub (jsMin2 a b) (fin m)) (jsSub (fin M) (fin m)) := by
      intro a b
      rw [jsSub_fin_fin, jsMin2_div_fin hd, jsMin2_sub_fin]
    have hniF : jsDiv (jsSub neginf (fin m)) (jsSub (fin M) (fin m)) = neginf := by
      rw [jsSub_neginf_fin, jsSub_fin_fin]
      exact jsDiv_neginf_fin hd
    have hpiF : jsDiv (jsSub posinf (fin m)) (jsSub (fin M) (fin m)) = posinf := by
      rw [jsSub_posinf_fin, jsSub_fin_fin]
      exact jsDiv_posinf_fin hd
    have hI1 : (points.map (fun p => (⟨p.wavelength,
          jsDiv (jsSub p.intensity (fin m)) (jsSub (fin M) (fin m))⟩ :
          DistributionPoint))).map (fun p => p.intensity) =
        (points.map (fun p => p.intensity)).map
          (fun v => jsDiv (jsSub v (fin m)) (jsSub (fin M) (fin m))) :=
      map_intensity_update points
        (fun v => jsDiv (jsSub v (fin m)) (jsSub (fin M) (fin m)))
    have hmax1 : jsMax ((points.map (fun p => (⟨p.wavelength,
          jsDiv (jsSub p.intensity (fin m)) (jsSub (fin M) (fin m))⟩ :
          DistributionPoint))).map (fun p => p.intensity)) = fin 1 := by
      rw [hI1, jsMax_map (fun v => jsDiv (jsSub v (fin m)) (jsSub (fin M) (fin m)))
        hniF hcommF, hM, jsSub_fin_fin, jsDiv_fin_fin _ hd.ne', div_self hd.ne']
    have hmin1 : jsMin ((points.map (fun p => (⟨p.wavelength,
          jsDiv (jsSub p.intensity (fin m)) (jsSub (fin M) (fin m))⟩ :
          DistributionPoint))).map (fun p => p.intensity)) = fin 0 := by
      rw [hI1, jsMin_map (fun v => jsDiv (jsSub v (fin m)) (jsSub (fin M) (fin m)))
        hpiF hcommFmin, hm, jsSub_fin_fin, jsSub_fin_fin, jsDiv_fin_fin _ hd.ne',
        sub_self, zero_div]
    have hl1 : (points.map (fun p => (⟨p.wavelength,
        jsDiv (jsSub p.intensity (fin m)) (jsSub (fin M) (fin m))⟩ :
        DistributionPoint))).length ≠ 0 := by
      rwa [List.length_map]
    have heq1 : jsEq
        (jsMax ((points.map (fun p => (⟨p.wavelength,
          jsDiv (jsSub p.intensity (fin m)) (jsSub (fin M) (fin m))⟩ :
          DistributionPoint))).map (fun p => p.intensity)))
        (jsMin ((points.map (fun p => (⟨p.wavelength,
          jsDiv (jsSub p.intensity (fin m)) (jsSub (fin M) (fin m))⟩ :
          DistributionPoint))).map (fun p => p.intensity))) = false := by
      rw [hmax1, hmin1, jsEq_fin_fin]
      exact decide_eq_false one_ne_zero
    rw [normalizeDistribution_formula_branch hl1 heq1, hmax1, hmin1]
    have hid : ∀ p ∈ points.map (fun p => (⟨p.wavelength,
        jsDiv (jsSub p.intensity (fin m)) (jsSub (fin M) (fin m))⟩ :
        DistributionPoint)),
        (⟨p.wavelength, jsDiv (jsSub p.intensity (fin 0)) (jsSub (fin 1) (fin 0))⟩ :
          DistributionPoint) = id p := by
      intro p hp
      obtain ⟨p0, hp0, rfl⟩ := List.mem_map.1 hp
      obtain ⟨q0, hq0⟩ := (jsIsFinite_iff _).1 (hfin p0 hp0)
      show (⟨p0.wavelength, jsDiv (jsSub (jsDiv (jsSub p0.intensity (fin m))
        (jsSub (fin M) (fin m))) (fin 0)) (jsSub (fin 1) (fin 0))⟩ :
          DistributionPoint) = _
      rw [hq0, jsSub_fin_fin, jsSub_fin_fin, jsDiv_fin_fin _ hd.ne', jsSub_fin_fin,
        jsSub_fin_fin, jsDiv_fin_fin _ (by norm_num : ((1 : ℚ) - 0) ≠ 0)]
      simp only [sub_zero, div_one, id]
    rw [List.map_congr_left hid, List.map_id]

/-- Witness for C8: a concrete all-finite curve. -/
theorem claim_C8_witness :
    (∀ p ∈ normalizePts1, jsIsFinite p.intensity = true) ∧
      normalizeDistribution (normalizeDistribution normalizePts1) =
        normalizeDistribution normalizePts1 :=
  ⟨by decide, claim_C8_normalize_noop normalizePts1 (by decide)⟩

theorem exportCellOfPoint_empty {p : SpectrumData}
    (hc : jsTruthy p.coefficient = false) (hn : jsTruthy p.normalized = false) :
    exportCellOfPoint p = ExportCell.empty := by
  rcases p with ⟨w, co, no⟩
  cases co <;> cases no <;> simp_all [exportCellOfPoint, jsTruthy]

theorem exportCell_of_find_none {s : SelectedSpectrum} {w : ℚ}
    (h : s.data.find? (fun p => decide (p.wavelength = w)) = none) :
    exportCell s w = ExportCell.empty := by
  simp only [exportCell, h]

theorem exportCell_of_find_some {s : SelectedSpectrum} {w : ℚ} {p : SpectrumData}
    (h : s.data.find? (fun p => decide (p.wavelength = w)) = some p) :
    exportCell s w = exportCellOfPoint p := by
  simp only [exportCell, h]

/-- C10: in the CSV export, a series whose exact-match point at a wavelength
carries only falsy values (0, NaN, or absent) in both `coefficient` and
`normalized` produces the empty cell, exactly as a series with no point at
that wavelength does — the two cases are indistinguishable in the export. -/
theorem claim_C10_falsy_cells :
    (∀ (s : SelectedSpectrum) (w : ℚ) (p : SpectrumData),
      s.data.find? (fun p => decide (p.wavelength = w)) = some p →
      jsTruthy p.coefficient = false → jsTruthy p.normalized = false →
      exportCell s w = ExportCell.empty) ∧
    (∀ (s : SelectedSpectrum) (w : ℚ),
      s.data.find? (fun p => decide (p.wavelength = w)) = none →
      exportCell s w = ExportCell.empty) := by
  refine ⟨?_, ?_⟩
  · intro s w p hfind hc hn
    rw [exportCell_of_find_some hfind]
    exact exportCellOfPoint_empty hc hn
  · intro s w hfind
    exact exportCell_of_find_none hfind

/-- Witness for C10: the zero-coefficient series exports an empty cell at
wavelength 400, as does a series with no point at 401. -/
theorem claim_C10_witness :
    (seriesZero.data.find? (fun p => decide (p.wavelength = 400)) =
        some (⟨400, some (fin 0), none⟩ : SpectrumData) ∧
      jsTruthy (some (fin 0)) = false ∧ jsTruthy (none : Option JsNum) = false ∧
      seriesZero.data.find? (fun p => decide (p.wavelength = 401)) = none) ∧
      exportCell seriesZero 400 = ExportCell.empty ∧
      exportCell seriesZero 401 = ExportCell.empty :=
  ⟨⟨by decide, by decide, by decide, by decide⟩,
    claim_C10_falsy_cells.1 seriesZero 400 ⟨400, some (fin 0), none⟩ (by decide)
      (by decide) (by decide),
    claim_C10_falsy_cells.2 seriesZero 401 (by decide)⟩

theorem exportRows_map_fst (series : List SelectedSpectrum) :
    (exportRows series).map Prod.fst = sortedWavelengths series := by
  rw [exportRows, List.map_map]
  exact List.map_id _

theorem mem_sortedWavelengths (series : List SelectedSpectrum) (w : ℚ) :
    w ∈ sortedWavelengths series ↔ ∃ s ∈ series, ∃ p ∈ s.data, p.wavelength = w := by
  rw [sortedWavelengths, (List.perm_insertionSort _ _).mem_iff, List.mem_dedup,
    allWavelengths, List.mem_flatMap]
  constructor
  · rintro ⟨s, hs, hw⟩
    obtain ⟨p, hp, hpw⟩ := List.mem_map.1 hw
    exact ⟨s, hs, p, hp, hpw⟩
  · rintro ⟨s, hs, p, hp, hpw⟩
    exact ⟨s, hs, List.mem_map.2 ⟨p, hp, hpw⟩⟩

theorem jsEq_eq_true_iff (a b : JsNum) : jsEq a b = true ↔ a = b ∧ a ≠ nan := by
  cases a <;> cases b <;> simp [jsEq]

theorem jsSortLe_fin_fin (a b : ℚ) : jsSortLe (fin a) (fin b) ↔ a ≤ b := by
  show jsGt (jsSub (fin a) (fin b)) (fin 0) = false ↔ a ≤ b
  rw [jsSub_fin_fin]
  show jsLt (fin 0) (fin (a - b)) = false ↔ a ≤ b
  simp only [jsLt, decide_eq_false_iff_not, not_lt, sub_nonpos]

theorem orderedInsert_map_fin (a : ℚ) (l : List ℚ) :
    List.orderedInsert jsSortLe (fin a) (l.map fin) =
      (List.orderedInsert (· ≤ ·) a l).map fin := by
  induction l with
  | nil => rfl
  | cons b t ih =>
      simp only [List.map_cons, List.orderedInsert]
      by_cases hab : a ≤ b
      · rw [if_pos ((jsSortLe_fin_fin a b).2 hab), if_pos hab, List.map_cons,
          List.map_cons]
      · rw [if_neg (fun hc => hab ((jsSortLe_fin_fin a b).1 hc)), if_neg hab,
          List.map_cons, ih]

theorem insertionSort_map_fin (l : List ℚ) :
    List.insertionSort jsSortLe (l.map fin) =
      (List.insertionSort (· ≤ ·) l).map fin := by
  induction l with
  | nil => rfl
  | cons a t ih =>
      simp only [List.map_cons, List.insertionSort, ih, orderedInsert_map_fin]

theorem dedup_map_fin (l : List ℚ) : (l.map fin).dedup = l.dedup.map fin := by
  induction l with
  | nil => rfl
  | cons a t ih =>
      by_cases h : a ∈ t
      · rw [List.map_cons, List.dedup_cons_of_mem (List.mem_map_of_mem fin h),
          List.dedup_cons_of_mem h, ih]
      · have hfn : fin a ∉ t.map fin := by
          intro hc
          obtain ⟨b, hb, he⟩ := List.mem_map.1 hc
          exact h ((JsNum.fin.inj he) ▸ hb)
        rw [List.map_cons, List.dedup_cons_of_not_mem hfn,
          List.dedup_cons_of_not_mem h, ih, List.map_cons]

theorem chartWavelengths_nil (series : List SelectedSpectrum) :
    chartWavelengths series [] = (allWavelengths series).map fin := by
  rw [chartWavelengths, allWavelengths]
  simp only [List.flatMap_nil, List.append_nil, List.map_flatMap, List.map_map]
  rfl

theorem sortedChartWavelengths_nil (series : List SelectedSpectrum) :
    sortedChartWavelengths series [] = (sortedWavelengths series).map fin := by
  rw [sortedChartWavelengths, sortedWavelengths, chartWavelengths_nil, dedup_map_fin,
    insertionSort_map_fin]

theorem chartData_map_fst (series : List SelectedSpectrum)
    (distributionData : List (List DistributionPoint)) :
    (chartData series distributionData).map Prod.fst =
      sortedChartWavelengths series distributionData := by
  rw [chartData, List.map_map]
  exact List.map_id _

theorem mem_sortedChartWavelengths (series : List SelectedSpectrum)
    (distributionData : List (List DistributionPoint)) (w : JsNum) :
    w ∈ sortedChartWavelengths series distributionData ↔
      ((∃ s ∈ series, ∃ p ∈ s.data, fin p.wavelength = w) ∨
        (∃ d ∈ distributionData, ∃ p ∈ d, p.wavelength = w)) := by
  rw [sortedChartWavelengths, (List.perm_insertionSort _ _).mem_iff, List.mem_dedup,
    chartWavelengths, List.mem_append, List.mem_flatMap, List.mem_flatMap]
  constructor
  · rintro (⟨s, hs, hw⟩ | ⟨d, hd, hw⟩)
    · obtain ⟨p, hp, hpw⟩ := List.mem_map.1 hw
      exact Or.inl ⟨s, hs, p, hp, hpw⟩
    · obtain ⟨p, hp, hpw⟩ := List.mem_map.1 hw
      exact Or.inr ⟨d, hd, p, hp, hpw⟩
  · rintro (⟨s, hs, p, hp, hpw⟩ | ⟨d, hd, p, hp, hpw⟩)
    · exact Or.inl ⟨s, hs, List.mem_map.2 ⟨p, hp, hpw⟩⟩
    · exact Or.inr ⟨d, hd, List.mem_map.2 ⟨p, hp, hpw⟩⟩

theorem chartMeasuredCell_isSome (s : SelectedSpectrum) (w : JsNum) :
    (chartMeasuredCell s w).isSome = true ↔ ∃ p ∈ s.data, fin p.wavelength = w := by
  rw [chartMeasuredCell]
  constructor
  · intro hs
    cases hfind : s.data.find? (fun p => jsEq (fin p.wavelength) w) with
    | none => rw [hfind] at hs; exact absurd hs (by simp)
    | some p =>
        have hps := List.find?_some hfind
        exact ⟨p, List.mem_of_find?_eq_some hfind, ((jsEq_eq_true_iff _ _).1 hps).1⟩
  · rintro ⟨p, hp, hpw⟩
    have hnn : (fin p.wavelength : JsNum) ≠ nan := by simp
    have hsome : (s.data.find? (fun p => jsEq (fin p.wavelength) w)).isSome :=
      List.find?_isSome.2 ⟨p, hp, (jsEq_eq_true_iff _ _).2 ⟨hpw, hnn⟩⟩
    obtain ⟨p0, hp0⟩ := Option.isSome_iff_exists.1 hsome
    rw [hp0]
    rfl

theorem chartDistributionCell_isSome (d : List DistributionPoint) (w : JsNum) :
    (chartDistributionCell d w).isSome = true ↔
      ∃ p ∈ d, jsEq p.wavelength w = true := by
  rw [chartDistributionCell]
  constructor
  · intro hs
    cases hfind : d.find? (fun p => jsEq p.wavelength w) with
    | none => rw [hfind] at hs; exact absurd hs (by simp)
    | some p =>
        have hps := List.find?_some hfind
        exact ⟨p, List.mem_of_find?_eq_some hfind, hps⟩
  · rintro ⟨p, hp, hpw⟩
    have hsome : (d.find? (fun p => jsEq p.wavelength w)).isSome :=
      List.find?_isSome.2 ⟨p, hp, hpw⟩
    obtain ⟨p0, hp0⟩ := Option.isSome_iff_exists.1 hsome
    rw [hp0]
    rfl

/-- C4 counterexample.  Both failures of the claim at concrete inputs.
First: series C's exact-match point at 400 has falsy values, so the chart
row holds a cell for it but the CSV export emits the empty cell.  Second:
with a (two-point Lorentzian) distribution overlaid, the chart frame gains
rows at the distribution's wavelengths 450 and 460 that the CSV export —
which iterates only the measured series and has no distribution columns —
does not have, so the frame is not "used identically" by the two
consumers. -/
theorem claim_C4_counterexample :
    (seriesZero.data.find? (fun p => decide (p.wavelength = 400)) =
        some (⟨400, some (fin 0), none⟩ : SpectrumData) ∧
      (chartMeasuredCell seriesZero (fin 400)).isSome = true ∧
      exportCell seriesZero 400 = ExportCell.empty) ∧
      ((chartData [seriesA]
          [calculateLorentzianSpectrum (fin 450) (fin 460) (fin 0) (fin 2) (fin 1)
            2]).map Prod.fst = [fin 400, fin 450, fin 460, fin 500] ∧
        (exportRows [seriesA]).map Prod.fst = [400, 500]) :=
  ⟨⟨by decide, by decide, by decide⟩, by decide, by decide⟩

/-- C4 (amended): the chart join and the CSV export each build one row per
distinct wavelength, but from different inputs.  The chart's row set is the
union of the measured series' wavelengths and the overlaid distribution
curves' wavelengths, sorted by the numeric comparator, and each chart row
holds a measured series' cell exactly when that series has an exact-match
(`===`) point there and a distribution's cell exactly when that curve has an
exact-match point there.  The CSV export builds its rows from the measured
series only, in strictly ascending order, and has no distribution cells at
all, so the two frames have the same rows exactly in the absence of a
distribution contribution — with no distributions overlaid the chart row
keys are precisely the export row keys — while an overlaid distribution
gives the chart rows the export lacks (see the counterexample).  A CSV cell
is empty when there is no exact-match point but also when the point's
values are falsy; for series whose points all carry truthy values, CSV cell
presence coincides with exact-match presence.  The spec's A/B example holds
in both frames. -/
theorem claim_C4_comparison_frame :
    (∀ (series : List SelectedSpectrum)
        (distributionData : List (List DistributionPoint)),
      (chartData series distributionData).map Prod.fst =
          sortedChartWavelengths series distributionData ∧
        ∀ w : JsNum, w ∈ (chartData series distributionData).map Prod.fst ↔
          ((∃ s ∈ series, ∃ p ∈ s.data, fin p.wavelength = w) ∨
            (∃ d ∈ distributionData, ∃ p ∈ d, p.wavelength = w))) ∧
    (∀ series : List SelectedSpectrum,
      (chartData series []).map Prod.fst =
          ((exportRows series).map Prod.fst).map fin ∧
        ((chartData series []).map Prod.fst).Pairwise
          (fun a b => jsLt a b = true)) ∧
    (∀ (s : SelectedSpectrum) (w : JsNum),
      (chartMeasuredCell s w).isSome = true ↔ ∃ p ∈ s.data, fin p.wavelength = w) ∧
    (∀ (d : List DistributionPoint) (w : JsNum),
      (chartDistributionCell d w).isSome = true ↔
        ∃ p ∈ d, jsEq p.wavelength w = true) ∧
    (∀ series : List SelectedSpectrum,
      (exportRows series).map Prod.fst = sortedWavelengths series ∧
        ((exportRows series).map Prod.fst).Pairwise (· < ·) ∧
        ∀ w : ℚ, w ∈ (exportRows series).map Prod.fst ↔
          ∃ s ∈ series, ∃ p ∈ s.data, p.wavelength = w) ∧
    (∀ (s : SelectedSpectrum) (w : ℚ),
      exportCell s w ≠ ExportCell.empty → ∃ p ∈ s.data, p.wavelength = w) ∧
    (∀ (s : SelectedSpectrum) (w : ℚ),
      (∀ p ∈ s.data, jsTruthy p.coefficient = true ∨ jsTruthy p.normalized = true) →
      (exportCell s w ≠ ExportCell.empty ↔ ∃ p ∈ s.data, p.wavelength = w)) ∧
    (chartData [seriesA, seriesB] [] =
      [(fin 400, [some (some (fin 1)), none], []),
        (fin 500, [some (some (fin 2)), some (some (fin 3))], []),
        (fin 600, [none, some (some (fin 4))], [])] ∧
      exportRows [seriesA, seriesB] =
        [(400, [ExportCell.val (fin 1), ExportCell.empty]),
          (500, [ExportCell.val (fin 2), ExportCell.val (fin 3)]),
          (600, [ExportCell.empty, ExportCell.val (fin 4)])]) := by
  have hexp : ∀ series : List SelectedSpectrum,
      (exportRows series).map Prod.fst = sortedWavelengths series ∧
        ((exportRows series).map Prod.fst).Pairwise (· < ·) ∧
        ∀ w : ℚ, w ∈ (exportRows series).map Prod.fst ↔
          ∃ s ∈ series, ∃ p ∈ s.data, p.wavelength = w := by
    intro series
    refine ⟨exportRows_map_fst series, ?_, ?_⟩
    · rw [exportRows_map_fst, sortedWavelengths]
      exact (List.sorted_insertionSort _ _).lt_of_le
        ((List.perm_insertionSort _ _).nodup_iff.2 (List.nodup_dedup _))
    · intro w
      rw [exportRows_map_fst]
      exact mem_sortedWavelengths series w
  refine ⟨?_, ?_, chartMeasuredCell_isSome, chartDistributionCell_isSome, hexp,
    ?_, ?_, by decide, by decide⟩
  · intro series distributionData
    refine ⟨chartData_map_fst series distributionData, ?_⟩
    intro w
    rw [chartData_map_fst]
    exact mem_sortedChartWavelengths series distributionData w
  · intro series
    have hrows : (chartData series []).map Prod.fst =
        ((exportRows series).map Prod.fst).map fin := by
      rw [chartData_map_fst, sortedChartWavelengths_nil,
        exportRows_map_fst]
    refine ⟨hrows, ?_⟩
    rw [hrows, List.pairwise_map]
    refine ((hexp series).2.1).imp ?_
    intro a b hab
    show jsLt (fin a) (fin b) = true
    simp only [jsLt, decide_eq_true_eq]
    exact hab
  · intro s w hne
    cases hfind : s.data.find? (fun p => decide (p.wavelength = w)) with
    | none => exact absurd (exportCell_of_find_none hfind) hne
    | some p =>
        have hps := List.find?_some hfind
        exact ⟨p, List.mem_of_find?_eq_some hfind, of_decide_eq_true hps⟩
  · intro s w htruthy
    constructor
    · intro hne
      cases hfind : s.data.find? (fun p => decide (p.wavelength = w)) with
      | none => exact absurd (exportCell_of_find_none hfind) hne
      | some p =>
          have hps := List.find?_some hfind
          exact ⟨p, List.mem_of_find?_eq_some hfind, of_decide_eq_true hps⟩
    · rintro ⟨p, hp, hpw⟩
      have hsome : (s.data.find? (fun p => decide (p.wavelength = w))).isSome :=
        List.find?_isSome.2 ⟨p, hp, decide_eq_true hpw⟩
      obtain ⟨p0, hp0⟩ := Option.isSome_iff_exists.1 hsome
      rw [exportCell_of_find_some hp0]
      have hp0mem := List.mem_of_find?_eq_some hp0
      rcases htruthy p0 hp0mem with ht | ht
      · rcases p0 with ⟨w0, co, no⟩
        cases co <;> simp_all [exportCellOfPoint, jsTruthy]
      · rcases p0 with ⟨w0, co, no⟩
        cases co <;> cases no <;> simp_all [exportCellOfPoint, jsTruthy] <;>
          split <;> simp_all

/-- Witness for C4: the truthy-series equivalence instantiated at series A,
at wavelength 400 (a point exists) and 450 (no point exists). -/
theorem claim_C4_witness :
    (∀ p ∈ seriesA.data, jsTruthy p.coefficient = true ∨ jsTruthy p.normalized = true) ∧
      ((exportCell seriesA 400 ≠ ExportCell.empty ↔
        ∃ p ∈ seriesA.data, p.wavelength = 400) ∧
      (exportCell seriesA 450 ≠ ExportCell.empty ↔
        ∃ p ∈ seriesA.data, p.wavelength = 450)) :=
  ⟨by decide,
    claim_C4_comparison_frame.2.2.2.2.2.2.1 seriesA 400 (by decide),
    claim_C4_comparison_frame.2.2.2.2.2.2.1 seriesA 450 (by decide)⟩

theorem jsMul_fin_fin (a b : ℚ) : jsMul (fin a) (fin b) = fin (a * b) := rfl

theorem jsAdd_fin_fin (a b : ℚ) : jsAdd (fin a) (fin b) = fin (a + b) := rfl

theorem jsPow_fin_two (q : ℚ) : jsPow (fin q) 2 = fin (q ^ 2) := rfl

theorem lorentzianRawPoints_map_intensity (lo hi pk fw mu : JsNum) (n : ℕ) :
    (lorentzianRawPoints lo hi pk fw mu n).map (fun p => p.intensity) =
      (List.range n).map (fun i : ℕ =>
        jsDiv (jsMul mu (jsPow (jsDiv fw (fin 2)) 2))
          (jsMul (fin jsPI)
            (jsAdd
              (jsPow (jsSub (jsAdd lo (jsMul (fin (i : ℚ))
                (jsDiv (jsSub hi lo) (fin ((n : ℚ) - 1))))) pk) 2)
              (jsPow (jsDiv fw (fin 2)) 2)))) := by
  simp only [lorentzianRawPoints]
  rw [List.map_map]
  rfl

theorem jsOrDefault_eq (v : Option JsNum) (d : JsNum) :
    jsOrDefault v d = (match v with
      | none => d
      | some x => if x = nan ∨ x = fin 0 then d else x) := by
  cases v with
  | none => rfl
  | some x =>
      cases x with
      | nan => rfl
      | posinf => simp [jsOrDefault, jsTruthyV]
      | neginf => simp [jsOrDefault, jsTruthyV]
      | fin q =>
          by_cases hq : q = 0
          · subst hq
            simp [jsOrDefault, jsTruthyV]
          · simp [jsOrDefault, jsTruthyV, hq]

/-- C7 (amended): the `||`-based defaulting of `calculateDistribution`
substitutes the documented default exactly when the optional field is absent
or its value is falsy — NaN or 0; a supplied 0 is therefore replaced by the
default, unlike what the claim states.  `lowWavelength` and `highWavelength`
are required fields and are always passed to the sampler unchanged, never
defaulted; the dispatcher is total and always calls the sampler selected by
`type` with `numPoints = 1000`. -/
theorem claim_C7_dispatch_defaults :
    (∀ (v : Option JsNum) (d : JsNum),
      jsOrDefault v d = (match v with
        | none => d
        | some x => if x = nan ∨ x = fin 0 then d else x)) ∧
    (∀ (mexp : JsNum → JsNum) (params : DistributionParams),
      (params.type = DistType.blackbody →
        calculateDistribution mexp params =
          calculateBlackbodySpectrum mexp params.lowWavelength params.highWavelength
            (jsOrDefault params.temperature (fin 5776)) 1000) ∧
      (params.type = DistType.gaussian →
        calculateDistribution mexp params =
          calculateGaussianSpectrum mexp params.lowWavelength params.highWavelength
            (jsOrDefault params.peakWavelength (fin 300))
            (jsOrDefault params.standardDeviation (fin 20))
            (jsOrDefault params.gaussianMultiplier (fin 1)) 1000) ∧
      (params.type = DistType.lorentzian →
        calculateDistribution mexp params =
          calculateLorentzianSpectrum params.lowWavelength params.highWavelength
            (jsOrDefault params.lorentzianPeakWavelength (fin 300))
            (jsOrDefault params.fwhm (fin 20))
            (jsOrDefault params.lorentzianMultiplier (fin 1)) 1000)) := by
  refine ⟨jsOrDefault_eq, ?_⟩
  intro mexp params
  rcases params with ⟨ty, lo, hi, t, pk, sd, gm, lpk, fw, lm⟩
  refine ⟨?_, ?_, ?_⟩ <;> intro ht <;> cases ty <;> simp_all <;> rfl

/-- Witness for C7: the request supplying `fwhm = 0` dispatches to the
Lorentzian sampler with the default 20 substituted for the falsy 0. -/
theorem claim_C7_witness :
    paramsZeroFwhm.type = DistType.lorentzian ∧
      calculateDistribution mexpId paramsZeroFwhm =
        calculateLorentzianSpectrum paramsZeroFwhm.lowWavelength
          paramsZeroFwhm.highWavelength
          (jsOrDefault paramsZeroFwhm.lorentzianPeakWavelength (fin 300))
          (jsOrDefault paramsZeroFwhm.fwhm (fin 20))
          (jsOrDefault paramsZeroFwhm.lorentzianMultiplier (fin 1)) 1000 :=
  ⟨rfl, (claim_C7_dispatch_defaults.2 mexpId paramsZeroFwhm).2.2 rfl⟩

theorem jsMul_nan_right (v : JsNum) : jsMul v nan = nan := by
  cases v <;> rfl

theorem head?_map_range {α : Type} (f : ℕ → α) {n : ℕ} (hn : n ≠ 0) :
    ((List.range n).map f).head? = some (f 0) := by
  rw [List.head?_map, List.head?_range]
  simp [hn]

theorem lorentz_intensity_fin {lo hi pk fw mu : ℚ} {n : ℕ} (i : ℕ)
    (hn : ((n : ℚ) - 1) ≠ 0)
    (hden : jsPI * ((lo + (i : ℚ) * ((hi - lo) / ((n : ℚ) - 1)) - pk) ^ 2 +
      (fw / 2) ^ 2) ≠ 0) :
    jsDiv (jsMul (fin mu) (jsPow (jsDiv (fin fw) (fin 2)) 2))
      (jsMul (fin jsPI)
        (jsAdd
          (jsPow (jsSub (jsAdd (fin lo) (jsMul (fin (i : ℚ))
            (jsDiv (jsSub (fin hi) (fin lo)) (fin ((n : ℚ) - 1))))) (fin pk)) 2)
          (jsPow (jsDiv (fin fw) (fin 2)) 2))) =
    fin (mu * (fw / 2) ^ 2 /
      (jsPI * ((lo + (i : ℚ) * ((hi - lo) / ((n : ℚ) - 1)) - pk) ^ 2 +
        (fw / 2) ^ 2))) := by
  rw [jsSub_fin_fin, jsDiv_fin_fin _ hn, jsMul_fin_fin, jsAdd_fin_fin, jsSub_fin_fin,
    jsDiv_fin_fin _ (by norm_num : (2 : ℚ) ≠ 0), jsPow_fin_two, jsPow_fin_two,
    jsMul_fin_fin, jsAdd_fin_fin, jsMul_fin_fin, jsDiv_fin_fin _ hden]

/-- C7 counterexample.  First conjunct: the claim lists `lowWavelength = 200`
among the defaults substituted for absent or non-numeric fields, but a NaN
`lowWavelength` is passed through unchanged (the first wavelength of the
result is NaN, not 200).  Second conjunct: `fwhm` supplied as the valid
number 0 is not passed unchanged — the falsy 0 is replaced by the default
20, so the result differs from the curve for `fwhm = 0` (whose intensities
are all 0, while the code's curve has a positive first intensity). -/
theorem claim_C7_counterexample :
    calculateDistribution mexpId paramsNanLow ≠
        calculateLorentzianSpectrum (fin 200) (fin 800) (fin 300) (fin 20) (fin 1)
          1000 ∧
      calculateDistribution mexpId paramsZeroFwhm ≠
        calculateLorentzianSpectrum (fin 200) (fin 800) (fin 300) (fin 0) (fin 1)
          1000 := by
  have h999 : (((1000 : ℕ) : ℚ) - 1) ≠ 0 := by norm_num
  have hn1000 : (1000 : ℕ) ≠ 0 := by norm_num
  have hpi : (0 : ℚ) < jsPI := by norm_num [jsPI]
  constructor
  · intro hc
    have hhead := congrArg (fun l => (List.map (fun p => p.wavelength) l).head?) hc
    simp only at hhead
    have e1 : calculateDistribution mexpId paramsNanLow =
        calculateLorentzianSpectrum nan (fin 800) (fin 300) (fin 20) (fin 1) 1000 :=
      rfl
    rw [e1, calculateLorentzianSpectrum_map_wavelength,
      calculateLorentzianSpectrum_map_wavelength, head?_map_range _ hn1000,
      head?_map_range _ hn1000] at hhead
    exact absurd hhead (by decide)
  · intro hc
    have hfin20 : ∀ x ∈ (lorentzianRawPoints (fin 200) (fin 800) (fin 300) (fin 20)
        (fin 1) 1000).map (fun p => p.intensity), ∃ q : ℚ, 0 < q ∧ x = fin q := by
      rw [lorentzianRawPoints_map_intensity]
      intro x hx
      obtain ⟨i, _, rfl⟩ := List.mem_map.1 hx
      have hdpos : (0 : ℚ) <
          (200 + (i : ℚ) * ((800 - 200) / (((1000 : ℕ) : ℚ) - 1)) - 300) ^ 2 +
            ((20 : ℚ) / 2) ^ 2 := by positivity
      have hden : jsPI *
          ((200 + (i : ℚ) * ((800 - 200) / (((1000 : ℕ) : ℚ) - 1)) - 300) ^ 2 +
            ((20 : ℚ) / 2) ^ 2) ≠ 0 := (mul_pos hpi hdpos).ne'
      rw [lorentz_intensity_fin i h999 hden]
      exact ⟨_, div_pos (by norm_num) (mul_pos hpi hdpos), rfl⟩
    have hIne20 : (lorentzianRawPoints (fin 200) (fin 800) (fin 300) (fin 20) (fin 1)
        1000).map (fun p => p.intensity) ≠ [] := by
      rw [lorentzianRawPoints_map_intensity]
      simp
    have hIfin20 : ∀ x ∈ (lorentzianRawPoints (fin 200) (fin 800) (fin 300) (fin 20)
        (fin 1) 1000).map (fun p => p.intensity), ∃ q : ℚ, x = fin q := by
      intro x hx
      obtain ⟨q, _, he⟩ := hfin20 x hx
      exact ⟨q, he⟩
    obtain ⟨M, hM, hMmem, _⟩ := jsMax_all_fin hIne20 hIfin20
    have hMpos : 0 < M := by
      obtain ⟨q, hq, he⟩ := hfin20 _ hMmem
      rwa [JsNum.fin.inj he]
    have e2 : calculateDistribution mexpId paramsZeroFwhm =
        rescalePoints (lorentzianRawPoints (fin 200) (fin 800) (fin 300) (fin 20)
          (fin 1) 1000) := rfl
    have hgt : jsGt (jsMax ((lorentzianRawPoints (fin 200) (fin 800) (fin 300)
        (fin 20) (fin 1) 1000).map (fun p => p.intensity))) (fin 0) = true := by
      rw [hM, jsGt_fin_zero]
      exact decide_eq_true hMpos
    have hden0 : jsPI *
        ((200 + ((0 : ℕ) : ℚ) * ((800 - 200) / (((1000 : ℕ) : ℚ) - 1)) - 300) ^ 2 +
          ((20 : ℚ) / 2) ^ 2) ≠ 0 := by
      refine (mul_pos hpi ?_).ne'
      positivity
    have hhead20 : ((lorentzianRawPoints (fin 200) (fin 800) (fin 300) (fin 20)
        (fin 1) 1000).map (fun p => p.intensity)).head? =
        some (fin (1 * ((20 : ℚ) / 2) ^ 2 / (jsPI *
          ((200 + ((0 : ℕ) : ℚ) * ((800 - 200) / (((1000 : ℕ) : ℚ) - 1)) - 300) ^ 2 +
            ((20 : ℚ) / 2) ^ 2)))) := by
      rw [lorentzianRawPoints_map_intensity, head?_map_range _ hn1000]
      exact congrArg some (lorentz_intensity_fin 0 h999 hden0)
    have hq0pos : (0 : ℚ) < 1 * ((20 : ℚ) / 2) ^ 2 / (jsPI *
        ((200 + ((0 : ℕ) : ℚ) * ((800 - 200) / (((1000 : ℕ) : ℚ) - 1)) - 300) ^ 2 +
          ((20 : ℚ) / 2) ^ 2)) := by
      refine div_pos (by norm_num) (mul_pos hpi ?_)
      positivity
    have hcodehead : ((calculateDistribution mexpId paramsZeroFwhm).map
        (fun p => p.intensity)).head? =
        some (fin (1 * ((20 : ℚ) / 2) ^ 2 / (jsPI *
          ((200 + ((0 : ℕ) : ℚ) * ((800 - 200) / (((1000 : ℕ) : ℚ) - 1)) - 300) ^ 2 +
            ((20 : ℚ) / 2) ^ 2)) / M)) := by
      rw [e2, rescalePoints_of_pos _ hgt,
        map_intensity_update _ (fun v => jsDiv v (jsMax ((lorentzianRawPoints (fin 200)
          (fin 800) (fin 300) (fin 20) (fin 1) 1000).map (fun p => p.intensity)))),
        hM, List.head?_map, hhead20]
      simp only [Option.map_some']
      rw [jsDiv_fin_fin _ hMpos.ne']
    have hdne : ∀ i : ℕ,
        (200 + (i : ℚ) * ((800 - 200) / (((1000 : ℕ) : ℚ) - 1)) - 300) ≠ 0 := by
      intro i hc0
      have h999e : (((1000 : ℕ) : ℚ) - 1) = 999 := by norm_num
      rw [h999e] at hc0
      have h2 : (i : ℚ) * 600 = 99900 := by
        field_simp at hc0
        linarith
      have h3 : ((i * 600 : ℕ) : ℚ) = 99900 := by
        push_cast
        linarith
      have h4 : i * 600 = 99900 := by exact_mod_cast h3
      omega
    have hzero : ∀ x ∈ (lorentzianRawPoints (fin 200) (fin 800) (fin 300) (fin 0)
        (fin 1) 1000).map (fun p => p.intensity), x = fin 0 := by
      rw [lorentzianRawPoints_map_intensity]
      intro x hx
      obtain ⟨i, _, rfl⟩ := List.mem_map.1 hx
      have hz : ((0 : ℚ) / 2) ^ 2 = 0 := by norm_num
      have hden : jsPI *
          ((200 + (i : ℚ) * ((800 - 200) / (((1000 : ℕ) : ℚ) - 1)) - 300) ^ 2 +
            ((0 : ℚ) / 2) ^ 2) ≠ 0 := by
        rw [hz, add_zero]
        exact mul_ne_zero hpi.ne' (pow_ne_zero 2 (hdne i))
      rw [lorentz_intensity_fin i h999 hden]
      exact congrArg fin (by rw [hz]; norm_num)
    have hIne0 : (lorentzianRawPoints (fin 200) (fin 800) (fin 300) (fin 0) (fin 1)
        1000).map (fun p => p.intensity) ≠ [] := by
      rw [lorentzianRawPoints_map_intensity]
      simp
    have hmax0 : jsMax ((lorentzianRawPoints (fin 200) (fin 800) (fin 300) (fin 0)
        (fin 1) 1000).map (fun p => p.intensity)) = fin 0 :=
      jsMax_const hIne0 hzero
    have e3 : calculateLorentzianSpectrum (fin 200) (fin 800) (fin 300) (fin 0)
        (fin 1) 1000 = lorentzianRawPoints (fin 200) (fin 800) (fin 300) (fin 0)
          (fin 1) 1000 := by
      rw [calculateLorentzianSpectrum]
      refine rescalePoints_of_not_pos _ ?_
      rw [hmax0, jsGt_fin_zero]
      exact decide_eq_false (lt_irrefl 0)
    have hden00 : jsPI *
        ((200 + ((0 : ℕ) : ℚ) * ((800 - 200) / (((1000 : ℕ) : ℚ) - 1)) - 300) ^ 2 +
          ((0 : ℚ) / 2) ^ 2) ≠ 0 := by
      have hz : ((0 : ℚ) / 2) ^ 2 = 0 := by norm_num
      rw [hz, add_zero]
      exact mul_ne_zero hpi.ne' (pow_ne_zero 2 (hdne 0))
    have hclaimhead : ((calculateLorentzianSpectrum (fin 200) (fin 800) (fin 300)
        (fin 0) (fin 1) 1000).map (fun p => p.intensity)).head? = some (fin 0) := by
      rw [e3, lorentzianRawPoints_map_intensity, head?_map_range _ hn1000,
        lorentz_intensity_fin 0 h999 hden00]
      exact congrArg some (congrArg fin (by norm_num))
    have hhead := congrArg (fun l => (List.map (fun p => p.intensity) l).head?) hc
    simp only at hhead
    rw [hcodehead, hclaimhead] at hhead
    have hq := JsNum.fin.inj (Option.some.inj hhead)
    exact absurd hq (div_pos hq0pos hMpos).ne'

end
